import Mathlib

/-!
# AuroraModule WebUI overlay example: page and plugin

A shallow embedding of `src/pages/example-page.js` (class `ExamplePage`) and
`src/plugins/example-plugin/index.js` (class `ExamplePlugin`), followed by the
properties proved about them.

Conventions of the embedding:

* A method of a class is a function on an explicit state. The state of the page
  is a `World`: the fields of the `ExamplePage` instance, the part of the
  document the page touches, and the ordered trace of the calls made into host
  services (`window.core`, `window.DialogManager`, `window.app.pluginManager`,
  DOM listener registration).
* Values supplied by the host while a method runs (the answer of a dialog, the
  clock, the outcome of a shell execution) are arguments of the function.
* `await` is sequencing: a method is modelled as running to completion, without
  interleaving of other handlers.
* The counter is a JavaScript number holding an integer; it is modelled as an
  exact `Int`, which agrees with the double arithmetic of the engine as long as
  the value stays below `2^53` in magnitude.
-/

set_option autoImplicit false

namespace AuroraModule

/-! ## Host values -/

/-- A JavaScript number as far as an index is concerned: an integer, or the
not-a-number value that `parseInt` returns when it finds no digits. -/
inductive JsNumber where
  | int (n : Int)
  | nan
  deriving DecidableEq, Repr

/-- The comparison `x >= n` of JavaScript; every comparison with NaN is false. -/
def JsNumber.ge (x : JsNumber) (n : Int) : Bool :=
  match x with
  | .int i => decide (n ≤ i)
  | .nan => false

/-- The comparison `x < n` of JavaScript; every comparison with NaN is false. -/
def JsNumber.lt (x : JsNumber) (n : Int) : Bool :=
  match x with
  | .int i => decide (i < n)
  | .nan => false

/-- The conversion `ToIntegerOrInfinity` applied to an argument of an array method: NaN
becomes 0. -/
def JsNumber.toInteger (x : JsNumber) : Int :=
  match x with
  | .int i => i
  | .nan => 0

/-- The characters `String.prototype.trim` strips: the WhiteSpace and LineTerminator
code points of ECMAScript. -/
def isJsWhiteSpace (c : Char) : Bool :=
  [0x0009, 0x000A, 0x000B, 0x000C, 0x000D, 0x0020, 0x00A0, 0x1680,
   0x2000, 0x2001, 0x2002, 0x2003, 0x2004, 0x2005, 0x2006, 0x2007, 0x2008, 0x2009, 0x200A,
   0x2028, 0x2029, 0x202F, 0x205F, 0x3000, 0xFEFF].contains c.toNat

/-- The method `String.prototype.trim`: white space removed from both ends. -/
def jsTrim (s : String) : String :=
  String.mk ((s.data.dropWhile isJsWhiteSpace).reverse.dropWhile isJsWhiteSpace).reverse

/-- The method `Array.prototype.splice(start, deleteCount)` without inserted elements: the
array as it is left after the call. -/
def splice {α : Type} (xs : List α) (start : JsNumber) (deleteCount : Int) : List α :=
  let len : Int := xs.length
  let relativeStart := start.toInteger
  let actualStart := if relativeStart < 0 then max (len + relativeStart) 0 else min relativeStart len
  let actualDeleteCount := min (max deleteCount 0) (len - actualStart)
  xs.take actualStart.toNat ++ xs.drop (actualStart + actualDeleteCount).toNat

/-! ## The page: data model -/

/-- One entry of `data.items`. -/
structure Item where
  text : String
  time : String
  deriving DecidableEq, Repr

/-- The object `this.data` of the page. -/
structure PageData where
  items : List Item
  loading : Bool
  counter : Int
  deriving DecidableEq, Repr

/-- An element of the document, as far as the page reads or writes it. The two content
properties are kept apart: the page writes `textContent` of one element and `innerHTML` of
another and reads neither back. -/
structure Node where
  id : String
  textContent : String
  innerHTML : String
  deriving DecidableEq, Repr

/-- The document: its elements in document order. An element is referred to by its
position. -/
abbrev Dom := List Node

/-- The method a listener closure created by `addEventListeners` calls. -/
inductive HandlerKind where
  | incrementCounter
  | decrementCounter
  | resetCounter
  | showToastExample
  | showDialogExample
  | execCommandExample
  | addItem
  | removeHandler
  deriving DecidableEq, Repr

/-- A listener function. Every evaluation of an arrow function creates a new function
object; `closure` is its identity. -/
structure Handler where
  kind : HandlerKind
  closure : Nat
  deriving DecidableEq, Repr

/-- A record of `this.eventListeners`. The element is a reference to a document element, or
null. An element reference always has the method `removeEventListener`. -/
structure ListenerRecord where
  element : Option Nat
  event : String
  handler : Handler
  deriving DecidableEq, Repr

/-- A call from the page into a host service. -/
inductive Effect where
  | logDebug (message tag : String)
  | showToast (message type : String)
  | showInput (title message placeholder : String)
  | addEventListener (element : Nat) (event : String) (handler : Handler)
  | removeEventListener (element : Nat) (event : String) (handler : Handler)
  | triggerHook (name : String)
  deriving DecidableEq, Repr

/-- The fields of an `ExamplePage` instance. -/
structure ExamplePage where
  data : PageData
  eventListeners : List ListenerRecord
  isInitialized : Bool
  deriving DecidableEq, Repr

/-- The constructor of `ExamplePage`. -/
def ExamplePage.new : ExamplePage :=
  { data := { items := [], loading := false, counter := 0 },
    eventListeners := [],
    isInitialized := false }

/-- The page together with what it acts on: the document, the trace of host calls made so
far, and the identity the next closure will get. -/
structure World where
  page : ExamplePage
  dom : Dom
  trace : List Effect
  nextClosure : Nat
  deriving DecidableEq, Repr

/-- What the host provides to the page: the lookup `window.i18n.t(key, params)` and whether
`window.app.pluginManager` is set. -/
structure Host where
  t : String → List (String × String) → String
  pluginManager : Bool

/-! ## The page: document access -/

/-- The call `document.getElementById(id)`: the first element with that id, or null. -/
def getElementById : Dom → String → Option Nat
  | [], _ => none
  | n :: ns, id => if n.id = id then some 0 else (getElementById ns id).map (· + 1)

/-- The assignment `element.textContent = value`. -/
def setTextContent : Dom → Nat → String → Dom
  | [], _, _ => []
  | n :: ns, 0, value => { n with textContent := value } :: ns
  | n :: ns, el + 1, value => n :: setTextContent ns el value

/-- The assignment `element.innerHTML = value`. -/
def setInnerHTML : Dom → Nat → String → Dom
  | [], _, _ => []
  | n :: ns, 0, value => { n with innerHTML := value } :: ns
  | n :: ns, el + 1, value => n :: setInnerHTML ns el value

/-- The call `window.core.showToast(message, type)`. -/
def World.showToast (w : World) (message type : String) : World :=
  { w with trace := w.trace ++ [Effect.showToast message type] }

/-! ## The page: rendering of the list -/

/-- The template literal of `renderItemList` for one item. -/
def renderItem (h : Host) (index : Nat) (item : Item) : String :=
  "\n      <div class=\"list-item\" data-index=\"" ++ toString index ++ "\">"
    ++ "\n        <span class=\"item-text\">" ++ item.text ++ "</span>"
    ++ "\n        <span class=\"item-time\">" ++ item.time ++ "</span>"
    ++ "\n        <button class=\"btn btn-small btn-danger remove-item\" data-index=\""
    ++ toString index ++ "\">"
    ++ "\n          " ++ h.t "examplePage.list.remove" []
    ++ "\n        </button>"
    ++ "\n      </div>"
    ++ "\n    "

/-- The method `renderItemList`. -/
def renderItemList (h : Host) (items : List Item) : String :=
  if items.length = 0 then
    "<p class=\"empty-message\">" ++ h.t "examplePage.list.empty" [] ++ "</p>"
  else
    String.join (items.enum.map (fun p => renderItem h p.1 p.2))

/-! ## The page: counter -/

/-- The method `updateCounterDisplay`. -/
def updateCounterDisplay (w : World) : World :=
  match getElementById w.dom "counter-value" with
  | some counterValue =>
    { w with dom := setTextContent w.dom counterValue (toString w.page.data.counter) }
  | none => w

/-- The assignment of a new value to `this.data.counter`. -/
def World.setCounter (w : World) (value : Int) : World :=
  { w with page := { w.page with data := { w.page.data with counter := value } } }

/-- The method `incrementCounter`. -/
def incrementCounter (h : Host) (w : World) : World :=
  let w1 := updateCounterDisplay (w.setCounter (w.page.data.counter + 1))
  w1.showToast
    (h.t "examplePage.counter.incremented" [("count", toString w1.page.data.counter)]) "success"

/-- The method `decrementCounter`. -/
def decrementCounter (h : Host) (w : World) : World :=
  let w1 := updateCounterDisplay (w.setCounter (w.page.data.counter - 1))
  w1.showToast
    (h.t "examplePage.counter.decremented" [("count", toString w1.page.data.counter)]) "info"

/-- The method `resetCounter`. -/
def resetCounter (h : Host) (w : World) : World :=
  let w1 := updateCounterDisplay (w.setCounter 0)
  w1.showToast (h.t "examplePage.counter.resetted" []) "warning"

/-! ## The page: list of items -/

/-- The method `updateItemList`. -/
def updateItemList (h : Host) (w : World) : World :=
  match getElementById w.dom "item-list" with
  | some itemList =>
    { w with dom := setInnerHTML w.dom itemList (renderItemList h w.page.data.items) }
  | none => w

/-- The assignment of a new array content to `this.data.items`. -/
def World.setItems (w : World) (items : List Item) : World :=
  { w with page := { w.page with data := { w.page.data with items := items } } }

/-- The method `addItem`. `answer` is what the input dialog resolves to (null when the
user cancels) and `now` is `new Date().toLocaleTimeString()` at that moment. -/
def addItem (h : Host) (answer : Option String) (now : String) (w : World) : World :=
  let w1 : World :=
    { w with trace := w.trace ++ [Effect.showInput (h.t "examplePage.list.addTitle" [])
        (h.t "examplePage.list.addMessage" []) (h.t "examplePage.list.addPlaceholder" [])] }
  match answer with
  | none => w1
  | some itemText =>
    if itemText ≠ "" ∧ jsTrim itemText ≠ "" then
      let newItem : Item := { text := jsTrim itemText, time := now }
      let w2 := updateItemList h (w1.setItems (w1.page.data.items ++ [newItem]))
      w2.showToast (h.t "examplePage.list.itemAdded" []) "success"
    else w1

/-- The method `removeItem`. -/
def removeItem (h : Host) (index : JsNumber) (w : World) : World :=
  if index.ge 0 && index.lt w.page.data.items.length then
    let w1 := updateItemList h (w.setItems (splice w.page.data.items index 1))
    w1.showToast (h.t "examplePage.list.itemRemoved" []) "info"
  else w

/-! ## The page: listeners -/

/-- One block of `addEventListeners`: look the element up and, when it is there, create the
handler, attach it, and record it. -/
def attach (id : String) (kind : HandlerKind) (w : World) : World :=
  match getElementById w.dom id with
  | some element =>
    let handler : Handler := { kind := kind, closure := w.nextClosure }
    { w with
      nextClosure := w.nextClosure + 1,
      trace := w.trace ++ [Effect.addEventListener element "click" handler],
      page := { w.page with
        eventListeners := w.page.eventListeners
          ++ [{ element := some element, event := "click", handler := handler }] } }
  | none => w

/-- The method `addEventListeners`. -/
def addEventListeners (w : World) : World :=
  let w := attach "increment-btn" HandlerKind.incrementCounter w
  let w := attach "decrement-btn" HandlerKind.decrementCounter w
  let w := attach "reset-btn" HandlerKind.resetCounter w
  let w := attach "toast-btn" HandlerKind.showToastExample w
  let w := attach "dialog-btn" HandlerKind.showDialogExample w
  let w := attach "command-btn" HandlerKind.execCommandExample w
  let w := attach "add-item-btn" HandlerKind.addItem w
  attach "item-list" HandlerKind.removeHandler w

/-- The method `onShow`. -/
def onShow (h : Host) (w : World) : World :=
  let w1 : World := { w with trace := w.trace ++ [Effect.logDebug "Example page shown" "PAGE"] }
  let w2 := addEventListeners w1
  let w3 : World :=
    if h.pluginManager then
      { w2 with trace := w2.trace ++ [Effect.triggerHook "example-page:shown"] }
    else w2
  { w3 with page := { w3.page with isInitialized := true } }

/-- The member call `element.removeEventListener(event, handler)`. On null it raises a
TypeError. -/
def removeEventListener (element : Option Nat) (event : String) (handler : Handler)
    (trace : List Effect) : Except String (List Effect) :=
  match element with
  | some el => Except.ok (trace ++ [Effect.removeEventListener el event handler])
  | none => Except.error "TypeError"

/-- The body of the `forEach` of `cleanup`, with its guard. -/
def detach (trace : List Effect) (r : ListenerRecord) : Except String (List Effect) :=
  if r.element.isSome then removeEventListener r.element r.event r.handler trace
  else Except.ok trace

/-- The method `cleanup`. -/
def cleanup (h : Host) (w : World) : Except String World := do
  let t0 := w.trace ++ [Effect.logDebug "Example page cleanup" "PAGE"]
  let t1 ← w.page.eventListeners.foldlM detach t0
  let t2 := if h.pluginManager then t1 ++ [Effect.triggerHook "example-page:cleanup"] else t1
  pure { w with trace := t2, page := { w.page with eventListeners := [], isInitialized := false } }

/-! ## The plugin: values and objects -/

/-- A JavaScript value held in a property of `this.settings` or `this.stats`. A value that
is neither a primitive nor an integer (a fraction, an array, a nested object) is `other`,
given by its JSON text; such a value is truthy. -/
inductive JsValue where
  | undefined
  | null
  | bool (b : Bool)
  | num (n : Int)
  | nan
  | str (s : String)
  | other (json : String)
  deriving DecidableEq, Repr

/-- An object as the list of its property definitions in order. As in an object literal, a
later definition of a key overrides an earlier one. -/
abbrev JsObject := List (String × JsValue)

/-- The own property `o[key]`, if the object has one. -/
def JsObject.get : JsObject → String → Option JsValue
  | [], _ => none
  | (k, v) :: rest, key =>
    match JsObject.get rest key with
    | some later => some later
    | none => if k = key then some v else none

/-- The property read `o.key`: undefined when the object has no such property. -/
def JsObject.read (o : JsObject) (key : String) : JsValue :=
  (o.get key).getD JsValue.undefined

/-- The property write `o[key] = value`: an existing property keeps its place, a new one
goes to the end. -/
def JsObject.set (o : JsObject) (key : String) (value : JsValue) : JsObject :=
  if o.any (fun e => e.1 = key) then o.map (fun e => if e.1 = key then (key, value) else e)
  else o ++ [(key, value)]

/-- The result of `JSON.parse`: an object, an array, or a primitive. -/
inductive Parsed where
  | object (o : JsObject)
  | array (xs : List JsValue)
  | value (v : JsValue)
  deriving DecidableEq, Repr

/-- The own enumerable properties object spread copies from a value: those of an object,
the indices of an array, the indices of a string, none of any other primitive. -/
def Parsed.ownProperties : Parsed → JsObject
  | .object o => o
  | .array xs => xs.enum.map (fun p => (toString p.1, p.2))
  | .value (.str s) => s.data.enum.map (fun p => (toString p.1, JsValue.str (String.singleton p.2)))
  | .value _ => []

/-- The object literal `{ ...target, ...source }`, for a target without repeated keys. -/
def spread (target : JsObject) (source : Parsed) : JsObject :=
  source.ownProperties.foldl (fun acc e => acc.set e.1 e.2) target

/-- The conversion `ToBoolean`. -/
def JsValue.truthy : JsValue → Bool
  | .undefined => false
  | .null => false
  | .bool b => b
  | .num n => decide (n ≠ 0)
  | .nan => false
  | .str s => decide (s ≠ "")
  | .other _ => true

/-! ## The plugin: host -/

/-- What the plugin is given: the built-in functions `JSON.parse` (which raises on text
that is not JSON) and `JSON.stringify`, the value of `x + 1` after numeric conversion for a
string or `other` value, and `api.getSetting`, which returns a string or undefined. -/
structure PluginHost where
  jsonParse : String → Except String Parsed
  jsonStringify : JsObject → String
  incrementOther : JsValue → JsValue
  getSetting : String → Option String

/-- The new value of `x++`. -/
def JsValue.increment (host : PluginHost) : JsValue → JsValue
  | .undefined => .nan
  | .null => .num 1
  | .bool b => .num (if b then 2 else 1)
  | .num n => .num (n + 1)
  | .nan => .nan
  | .str s => host.incrementOther (.str s)
  | .other j => host.incrementOther (.other j)

/-- The function a plugin button runs. -/
inductive ButtonAction where
  | showPluginSettings
  | showStatistics
  | showQuickActions
  | showPluginInfo
  deriving DecidableEq, Repr

/-- The function a hook subscription runs. -/
inductive HookCallback where
  | onPageLoaded
  | onExamplePageShown
  | onExamplePageCleanup
  | onAppReady
  deriving DecidableEq, Repr

/-- The content of a generic dialog: the template literal it instantiates, with the values
interpolated into it. -/
inductive DialogContent where
  | settingsForm (autoGreeting : Bool) (greetingMessage : JsValue)
      (showNotifications debugMode : Bool)
  | statistics (pageVisits buttonsClicked commandsExecuted : JsValue) (version : String)
  | pluginInfo (name version description : String) (isEnabled : Bool)
  | systemInfo (text : String)
  deriving DecidableEq, Repr

/-- A callback handed to `setTimeout` and not awaited: the notification with
`this.settings.greetingMessage`, or the notification that the advanced operation is done. -/
inductive TimerCallback where
  | greetingToast
  | advancedDoneToast
  deriving DecidableEq, Repr

/-- A call from the plugin into a host service; `delay` is the awaited `setTimeout`. -/
inductive PluginEffect where
  | setSetting (key value : String)
  | showToast (message type : String)
  | addButton (slot icon title : String) (action : ButtonAction)
  | addHook (name : String) (callback : HookCallback)
  | logDebug (message tag : String)
  | exec (command : String)
  | delay (ms : Nat)
  | setTimeout (callback : TimerCallback) (ms : Nat)
  | confirm (title message : String)
  | list (title : String) (options : List (String × String))
  | showGeneric (title : String) (content : DialogContent) (buttons : List String)
  deriving DecidableEq, Repr

/-- A value with which a promise is rejected. The property `message` can be read on every
value but null and undefined, on which the read raises a TypeError; `messageText` is what
`error.message` interpolates to: the message of an `Error`, the text `undefined` for a value
that has no such property. -/
inductive Thrown where
  | value (messageText : String)
  | nullish
  deriving DecidableEq, Repr

/-- What an awaited `window.core.exec(command)` does: it resolves to a result object
`{success, stdout, stderr}` or is rejected with a thrown value. -/
inductive ExecOutcome where
  | returned (success : Bool) (stdout stderr : String)
  | threw (error : Thrown)
  deriving DecidableEq, Repr

/-- The fields of an `ExamplePlugin` instance. -/
structure ExamplePlugin where
  name : String
  version : String
  description : String
  isEnabled : Bool
  settings : JsObject
  stats : JsObject
  deriving DecidableEq, Repr

/-- The constructor of `ExamplePlugin`. -/
def ExamplePlugin.new : ExamplePlugin :=
  { name := "ExamplePlugin",
    version := "1.0.0",
    description := "Aurora Module WebUI示例插件",
    isEnabled := true,
    settings :=
      [("autoGreeting", JsValue.bool true),
       ("greetingMessage", JsValue.str "Welcome to Aurora Module!"),
       ("showNotifications", JsValue.bool true),
       ("debugMode", JsValue.bool false)],
    stats :=
      [("pageVisits", JsValue.num 0),
       ("buttonsClicked", JsValue.num 0),
       ("commandsExecuted", JsValue.num 0)] }

/-- The plugin together with the trace of the host calls it has made. -/
structure PluginWorld where
  plugin : ExamplePlugin
  trace : List PluginEffect
  deriving DecidableEq, Repr

/-- One more host call. -/
def PluginWorld.call (w : PluginWorld) (e : PluginEffect) : PluginWorld :=
  { w with trace := w.trace ++ [e] }

/-- How a method that an exception can interrupt ends: the state it leaves, and the
exception that escapes it (its promise is rejected with), if any. -/
structure Ended where
  world : PluginWorld
  raised : Option String
  deriving DecidableEq, Repr

/-! ## The plugin: settings and stats -/

/-- One half of `loadSettings`: the stored value under a key merged over the current
object when it is truthy. -/
def loadStored (host : PluginHost) (key : String) (current : JsObject) :
    Except String JsObject :=
  match host.getSetting key with
  | some saved =>
    if saved ≠ "" then do
      let parsed ← host.jsonParse saved
      pure (spread current parsed)
    else pure current
  | none => pure current

/-- The method `loadSettings`. -/
def loadSettings (host : PluginHost) (p : ExamplePlugin) : Except String ExamplePlugin := do
  let settings ← loadStored host "examplePlugin.settings" p.settings
  let p1 := { p with settings := settings }
  let stats ← loadStored host "examplePlugin.stats" p1.stats
  pure { p1 with stats := stats }

/-- The method `saveSettings`. -/
def saveSettings (host : PluginHost) (w : PluginWorld) : PluginWorld :=
  w.call (PluginEffect.setSetting "examplePlugin.settings" (host.jsonStringify w.plugin.settings))

/-- The method `saveStats`. -/
def saveStats (host : PluginHost) (w : PluginWorld) : PluginWorld :=
  w.call (PluginEffect.setSetting "examplePlugin.stats" (host.jsonStringify w.plugin.stats))

/-- The statement `this.stats[key]++`. -/
def incrementStat (host : PluginHost) (key : String) (w : PluginWorld) : PluginWorld :=
  { w with plugin := { w.plugin with
      stats := w.plugin.stats.set key ((w.plugin.stats.read key).increment host) } }

/-! ## The plugin: initialization -/

/-- The method `addPluginButtons`. -/
def addPluginButtons (w : PluginWorld) : PluginWorld :=
  let w := w.call (PluginEffect.addButton "header" "tune" "插件设置" ButtonAction.showPluginSettings)
  let w := w.call (PluginEffect.addButton "header" "analytics" "使用统计" ButtonAction.showStatistics)
  let w := w.call (PluginEffect.addButton "sidebar" "flash_on" "快速操作" ButtonAction.showQuickActions)
  w.call (PluginEffect.addButton "bottom" "info" "插件信息" ButtonAction.showPluginInfo)

/-- The method `registerEventListeners`. -/
def registerEventListeners (w : PluginWorld) : PluginWorld :=
  let w := w.call (PluginEffect.addHook "page:loaded" HookCallback.onPageLoaded)
  let w := w.call (PluginEffect.addHook "example-page:shown" HookCallback.onExamplePageShown)
  let w := w.call (PluginEffect.addHook "example-page:cleanup" HookCallback.onExamplePageCleanup)
  w.call (PluginEffect.addHook "app:ready" HookCallback.onAppReady)

/-- The method `init`. The result is an error when the promise it returns is rejected. -/
def init (host : PluginHost) (w : PluginWorld) : Except String PluginWorld := do
  let p ← loadSettings host w.plugin
  let w1 : PluginWorld := { w with plugin := p }
  let w2 := addPluginButtons w1
  let w3 := registerEventListeners w2
  let w4 :=
    if (w3.plugin.settings.read "showNotifications").truthy then
      w3.call (PluginEffect.showToast "示例插件已加载" "success")
    else w3
  let w5 :=
    if (w4.plugin.settings.read "debugMode").truthy then
      w4.call (PluginEffect.logDebug "Example plugin initialized" "PLUGIN")
    else w4
  pure w5

/-! ## The plugin: batch commands -/

/-- The array `commands` of `executeBatchCommands`. -/
def batchCommands : List String :=
  ["echo \"插件批量命令 1\"", "echo \"插件批量命令 2\"", "echo \"插件批量命令 3\""]

/-- One round of the loop of `executeBatchCommands`: the execution, the notification of
its outcome, and the delay. The catch block reads `error.message`, which raises when the
thrown value is null or undefined; nothing catches that, so the round ends there. -/
def runCommand (outcome : ExecOutcome) (i : Nat) (command : String) (w : PluginWorld) :
    Ended :=
  let w1 := w.call (PluginEffect.exec command)
  match outcome with
  | .returned success stdout _ =>
    let w2 :=
      if success then
        w1.call (PluginEffect.showToast
          ("命令 " ++ toString (i + 1) ++ " 执行成功: " ++ jsTrim stdout) "success")
      else
        w1.call (PluginEffect.showToast ("命令 " ++ toString (i + 1) ++ " 执行失败") "error")
    { world := w2.call (PluginEffect.delay 500), raised := none }
  | .threw (.value message) =>
    let w2 := w1.call (PluginEffect.showToast
      ("命令 " ++ toString (i + 1) ++ " 执行出错: " ++ message) "error")
    { world := w2.call (PluginEffect.delay 500), raised := none }
  | .threw .nullish => { world := w1, raised := some "TypeError" }

/-- The loop of `executeBatchCommands` from index `i` on; `exec i` is the outcome of
the execution of command `i`. An exception that escapes a round ends the loop. -/
def batchLoop (exec : Nat → ExecOutcome) : Nat → List String → PluginWorld → Ended
  | _, [], w => { world := w, raised := none }
  | i, command :: rest, w =>
    match runCommand (exec i) i command w with
    | { world := w1, raised := none } => batchLoop exec (i + 1) rest w1
    | { world := w1, raised := some e } => { world := w1, raised := some e }

/-- The method `executeBatchCommands`. An exception that escapes the loop escapes the
method, before the completion notification. -/
def executeBatchCommands (host : PluginHost) (exec : Nat → ExecOutcome) (w : PluginWorld) :
    Ended :=
  let w := incrementStat host "buttonsClicked" w
  let w := incrementStat host "commandsExecuted" w
  let w := saveStats host w
  let w := w.call (PluginEffect.showToast "开始执行批量命令..." "info")
  match batchLoop exec 0 batchCommands w with
  | { world := w1, raised := none } =>
    { world := w1.call (PluginEffect.showToast "批量命令执行完成" "success"), raised := none }
  | { world := w1, raised := some e } => { world := w1, raised := some e }

/-! ## The plugin: hooks and actions -/

/-- The method `onHomePageLoaded`. -/
def onHomePageLoaded (w : PluginWorld) : PluginWorld :=
  if (w.plugin.settings.read "autoGreeting").truthy
      && (w.plugin.settings.read "showNotifications").truthy then
    w.call (PluginEffect.setTimeout TimerCallback.greetingToast 1000)
  else w

/-- The method `onExamplePageLoaded`. -/
def onExamplePageLoaded (w : PluginWorld) : PluginWorld :=
  if (w.plugin.settings.read "showNotifications").truthy then
    w.call (PluginEffect.showToast "示例页面已加载，插件功能已激活" "success")
  else w

/-- The method `onSettingsPageLoaded`. -/
def onSettingsPageLoaded (w : PluginWorld) : PluginWorld :=
  if (w.plugin.settings.read "debugMode").truthy then
    w.call (PluginEffect.logDebug "Settings page loaded, plugin settings available" "PLUGIN")
  else w

/-- The method `onPageLoaded`; `page` is `data.page`. -/
def onPageLoaded (host : PluginHost) (page : String) (w : PluginWorld) : PluginWorld :=
  let w := incrementStat host "pageVisits" w
  let w := saveStats host w
  let w :=
    if (w.plugin.settings.read "debugMode").truthy then
      w.call (PluginEffect.logDebug ("Page loaded: " ++ page) "PLUGIN")
    else w
  if page = "home" then onHomePageLoaded w
  else if page = "example-page" then onExamplePageLoaded w
  else if page = "settings" then onSettingsPageLoaded w
  else w

/-- The method `executePluginAction1`. -/
def executePluginAction1 (host : PluginHost) (w : PluginWorld) : PluginWorld :=
  let w := incrementStat host "buttonsClicked" w
  let w := saveStats host w
  let w := w.call (PluginEffect.showToast "插件操作1已执行" "success")
  if (w.plugin.settings.read "debugMode").truthy then
    w.call (PluginEffect.logDebug "Plugin action 1 executed" "PLUGIN")
  else w

/-- The method `executePluginAction2`; `confirmed` is what the confirmation dialog
resolves to. -/
def executePluginAction2 (host : PluginHost) (confirmed : Bool) (w : PluginWorld) :
    PluginWorld :=
  let w := incrementStat host "buttonsClicked" w
  let w := saveStats host w
  let w := w.call (PluginEffect.confirm "插件操作确认" "这将执行插件的高级操作，是否继续？")
  if confirmed then
    let w := w.call (PluginEffect.showToast "插件高级操作已执行" "success")
    w.call (PluginEffect.setTimeout TimerCallback.advancedDoneToast 2000)
  else w

/-- The method `resetStats`. -/
def resetStats (host : PluginHost) (w : PluginWorld) : PluginWorld :=
  saveStats host
    { w with plugin := { w.plugin with
        stats :=
          [("pageVisits", JsValue.num 0),
           ("buttonsClicked", JsValue.num 0),
           ("commandsExecuted", JsValue.num 0)] } }

/-- The method `showSystemInfo`; `outcome` is what the execution of `uname -a` does. -/
def showSystemInfo (outcome : ExecOutcome) (w : PluginWorld) : PluginWorld :=
  let w := w.call (PluginEffect.exec "uname -a")
  match outcome with
  | .returned success stdout _ =>
    let systemInfo := if success then stdout else "无法获取系统信息"
    w.call (PluginEffect.showGeneric "系统信息" (DialogContent.systemInfo systemInfo) ["关闭"])
  | .threw _ => w.call (PluginEffect.showToast "获取系统信息失败" "error")

/-- The method `executeQuickAction`. -/
def executeQuickAction (host : PluginHost) (action : String) (outcome : ExecOutcome)
    (w : PluginWorld) : PluginWorld :=
  let w := incrementStat host "buttonsClicked" w
  let w := saveStats host w
  if action = "clear-cache" then w.call (PluginEffect.showToast "缓存清理完成" "success")
  else if action = "reload-config" then
    w.call (PluginEffect.showToast "配置重新加载完成" "success")
  else if action = "export-logs" then w.call (PluginEffect.showToast "日志导出完成" "success")
  else if action = "system-info" then showSystemInfo outcome w
  else w

/-! ## The plugin: views -/

/-- What the user does with a generic dialog: presses the button at an index, or closes the
dialog. -/
inductive DialogResponse where
  | button (index : Nat)
  | dismissed
  deriving DecidableEq, Repr

/-- The inputs of the settings dialog as `savePluginSettings` finds them: the `checked` or
`value` property of each element, none for an element that is not in the document. -/
structure SettingsForm where
  autoGreeting : Option Bool
  greetingMessage : Option String
  showNotifications : Option Bool
  debugMode : Option Bool
  deriving DecidableEq, Repr

/-- The method `savePluginSettings`. -/
def savePluginSettings (host : PluginHost) (form : SettingsForm) (w : PluginWorld) :
    PluginWorld :=
  let settings := w.plugin.settings.set "autoGreeting" (JsValue.bool (form.autoGreeting.getD false))
  let message :=
    match form.greetingMessage with
    | some value => if value ≠ "" then value else "Welcome to Aurora Module!"
    | none => "Welcome to Aurora Module!"
  let settings := settings.set "greetingMessage" (JsValue.str message)
  let settings := settings.set "showNotifications" (JsValue.bool (form.showNotifications.getD false))
  let settings := settings.set "debugMode" (JsValue.bool (form.debugMode.getD false))
  saveSettings host { w with plugin := { w.plugin with settings := settings } }

/-- The method `showPluginSettings`, followed by what the user does with the dialog; the
first button is the one that saves. -/
def showPluginSettings (host : PluginHost) (response : DialogResponse) (form : SettingsForm)
    (w : PluginWorld) : PluginWorld :=
  let w := w.call (PluginEffect.showGeneric "插件设置"
    (DialogContent.settingsForm (w.plugin.settings.read "autoGreeting").truthy
      (w.plugin.settings.read "greetingMessage")
      (w.plugin.settings.read "showNotifications").truthy
      (w.plugin.settings.read "debugMode").truthy)
    ["保存", "取消"])
  match response with
  | .button 0 =>
    (savePluginSettings host form w).call (PluginEffect.showToast "插件设置已保存" "success")
  | _ => w

/-- The method `showStatistics`, followed by what the user does with the dialog; the first
button is the one that resets. -/
def showStatistics (host : PluginHost) (response : DialogResponse) (w : PluginWorld) :
    PluginWorld :=
  let w := w.call (PluginEffect.showGeneric "使用统计"
    (DialogContent.statistics (w.plugin.stats.read "pageVisits")
      (w.plugin.stats.read "buttonsClicked") (w.plugin.stats.read "commandsExecuted")
      w.plugin.version)
    ["重置统计", "关闭"])
  match response with
  | .button 0 => (resetStats host w).call (PluginEffect.showToast "统计数据已重置" "info")
  | _ => w

/-- The method `showPluginInfo`, followed by what the user does with the dialog; its only
button does nothing. -/
def showPluginInfo (_response : DialogResponse) (w : PluginWorld) : PluginWorld :=
  w.call (PluginEffect.showGeneric "插件信息"
    (DialogContent.pluginInfo w.plugin.name w.plugin.version w.plugin.description
      w.plugin.isEnabled)
    ["关闭"])

/-- The method `showQuickActions`; `selected` is what the list dialog resolves to (null when
nothing is chosen) and `outcome` what an execution of `uname -a` does. -/
def showQuickActions (host : PluginHost) (selected : Option String) (outcome : ExecOutcome)
    (w : PluginWorld) : PluginWorld :=
  let w := w.call (PluginEffect.list "选择快速操作"
    [("清理缓存", "clear-cache"), ("重新加载配置", "reload-config"),
     ("导出日志", "export-logs"), ("系统信息", "system-info")])
  match selected with
  | some action => if action ≠ "" then executeQuickAction host action outcome w else w
  | none => w

/-! ## Vocabulary of the properties of the page -/

/-- A call of one of the three counter methods. -/
inductive CounterOp where
  | increment
  | decrement
  | reset
  deriving DecidableEq, Repr

/-- The counter method a call stands for. -/
def applyCounterOp (h : Host) (op : CounterOp) (w : World) : World :=
  match op with
  | .increment => incrementCounter h w
  | .decrement => decrementCounter h w
  | .reset => resetCounter h w

/-- A sequence of counter calls, made one after the other. -/
def runCounterOps (h : Host) (ops : List CounterOp) (w : World) : World :=
  ops.foldl (fun acc op => applyCounterOp h op acc) w

/-- The calls made since the most recent reset, or all of them when there was none. -/
def sinceLastReset (ops : List CounterOp) : List CounterOp :=
  ops.foldl (fun acc op => if op = CounterOp.reset then [] else acc ++ [op]) []

/-- Increments minus decrements among the given calls. -/
def netCount (ops : List CounterOp) : Int :=
  (ops.count CounterOp.increment : Int) - (ops.count CounterOp.decrement : Int)

/-- The text of an element of the document. -/
def textContentOf (d : Dom) (el : Nat) : Option String :=
  (d.get? el).map Node.textContent

/-- The markup of an element of the document. -/
def innerHTMLOf (d : Dom) (el : Nat) : Option String :=
  (d.get? el).map Node.innerHTML

/-! ## Reading a fragment of markup

What the browser makes of the string assigned to `innerHTML` is observed through the start
tags of the string. The scan follows the HTML tokenizer as far as these fragments need it:
character data runs up to `<`; `<` followed by a letter opens a start tag that runs up to the
next `>` outside a double-quoted attribute value; `<` followed by anything else (an end tag,
a comment) opens no element. Every start tag creates one element. -/

/-- Where the scan of a fragment stands. -/
inductive Scan where
  | text
  | tagOpen
  | tag (buf : List Char)
  | quoted (buf : List Char)
  deriving DecidableEq, Repr

/-- The state of the scan after one more character. -/
def Scan.next (st : Scan) (c : Char) : Scan :=
  match st with
  | .text => if c = '<' then .tagOpen else .text
  | .tagOpen => if c.isAlpha then .tag [c] else if c = '<' then .tagOpen else .text
  | .tag buf =>
    if c = '>' then .text else if c = '"' then .quoted (buf ++ [c]) else .tag (buf ++ [c])
  | .quoted buf => if c = '"' then .tag (buf ++ [c]) else .quoted (buf ++ [c])

/-- The start tag completed by one more character, if any: its text between `<` and `>`. -/
def Scan.emit (st : Scan) (c : Char) : Option (List Char) :=
  match st with
  | .tag buf => if c = '>' then some buf else none
  | _ => none

/-- The start tags completed while scanning the characters from the given state. -/
def scanFrom : Scan → List Char → List (List Char)
  | _, [] => []
  | st, c :: cs => (st.emit c).toList ++ scanFrom (st.next c) cs

/-- The state in which the scan of the characters ends. -/
def scanEnd (st : Scan) (cs : List Char) : Scan :=
  cs.foldl Scan.next st

/-- The start tags of a fragment, in document order. -/
def startTags (html : String) : List (List Char) :=
  scanFrom Scan.text html.data

/-- The text after the first occurrence of a pattern. -/
def findAfter (pat : List Char) : List Char → Option (List Char)
  | [] => none
  | c :: cs =>
    if pat.isPrefixOf (c :: cs) then some ((c :: cs).drop pat.length) else findAfter pat cs

/-- The value of the double-quoted attribute of that name in a start tag. -/
def attrValue (name : String) (tag : List Char) : Option (List Char) :=
  (findAfter (' ' :: name.data ++ ['=', '"']) tag).map
    (fun rest => rest.takeWhile (fun c => c != '"'))

/-- The words of an attribute value, separated by spaces. -/
def splitSpaces : List Char → List (List Char)
  | [] => [[]]
  | c :: cs =>
    if c = ' ' then [] :: splitSpaces cs
    else
      match splitSpaces cs with
      | [] => [[c]]
      | word :: words => (c :: word) :: words

/-- Whether the class attribute of a start tag lists the class. -/
def hasClass (cls : String) (tag : List Char) : Bool :=
  match attrValue "class" tag with
  | some value => (splitSpaces value).contains cls.data
  | none => false

/-- The elements of a class in a fragment, each given by its start tag. -/
def elementsOfClass (cls : String) (html : String) : List (List Char) :=
  (startTags html).filter (hasClass cls)

/-- The attribute `data-index` of an element. -/
def dataIndex (tag : List Char) : Option String :=
  (attrValue "data-index" tag).map String.mk

/-- A string without markup: it has no `<`. -/
def markupFree (s : String) : Prop :=
  '<' ∉ s.data

instance (s : String) : Decidable (markupFree s) :=
  inferInstanceAs (Decidable ('<' ∉ s.data))

/-- Scanning the characters from `st` completes the start tags `out` and ends in `st1`. -/
def Scans (st : Scan) (cs : List Char) (out : List (List Char)) (st1 : Scan) : Prop :=
  scanFrom st cs = out ∧ scanEnd st cs = st1

instance (st : Scan) (cs : List Char) (out : List (List Char)) (st1 : Scan) :
    Decidable (Scans st cs out st1) :=
  inferInstanceAs (Decidable (scanFrom st cs = out ∧ scanEnd st cs = st1))

/-- The start tag of the `list-item` element of the item at an index. -/
def listItemTag (index : Nat) : List Char :=
  "div class=\"list-item\" data-index=\"".data ++ (toString index).data ++ ['"']

/-- The start tag of the remove button of the item at an index. -/
def removeButtonTag (index : Nat) : List Char :=
  "button class=\"btn btn-small btn-danger remove-item\" data-index=\"".data
    ++ (toString index).data ++ ['"']

/-- The start tags of the markup of one item. -/
def itemTags (index : Nat) : List (List Char) :=
  [listItemTag index, "span class=\"item-text\"".data, "span class=\"item-time\"".data,
    removeButtonTag index]

/-! ## Sample inputs -/

/-- A host whose localization returns the key and that has a plugin manager. -/
def sampleHost : Host :=
  { t := fun key _ => key, pluginManager := true }

/-- A document with the counter display, the list container and two of the buttons. -/
def sampleDom : Dom :=
  [{ id := "counter-value", textContent := "0", innerHTML := "" },
   { id := "increment-btn", textContent := "", innerHTML := "" },
   { id := "item-list", textContent := "", innerHTML := "" },
   { id := "add-item-btn", textContent := "", innerHTML := "" }]

/-- A freshly constructed page on the sample document. -/
def sampleWorld : World :=
  { page := ExamplePage.new, dom := sampleDom, trace := [], nextClosure := 0 }

/-- The sample world with two items in the list. -/
def sampleWorldTwoItems : World :=
  sampleWorld.setItems [{ text := "milk", time := "10:00:00" }, { text := "eggs", time := "10:05:00" }]

/-- An item whose text is markup for one more element of class `list-item`. -/
def markupItem : Item :=
  { text := "<div class=\"list-item\" data-index=\"7\"></div>", time := "10:00:00" }

/-! ## Vocabulary of the properties of the plugin -/

/-- Whether the stored value under a key can be loaded: it is undefined, or the empty
string, or text that `JSON.parse` accepts. -/
def loads (host : PluginHost) (key : String) : Bool :=
  match host.getSetting key with
  | none => true
  | some saved =>
    if saved = "" then true
    else
      match host.jsonParse saved with
      | .ok _ => true
      | .error _ => false

/-- The severity of the notification for a command: `success` exactly when the execution
returned `success: true`, `error` otherwise. -/
def notifySeverity : ExecOutcome → String
  | .returned true _ _ => "success"
  | _ => "error"

/-- The trace of host calls as C8 words it: a start notification of severity `info`; for
each of the three commands in order its execution, one notification and one delay of 500 ms;
a final notification of severity `success`. -/
def batchTraceShape (exec : Nat → ExecOutcome) (t : List PluginEffect) : Prop :=
  ∃ start m0 m1 m2 done : String,
    t = [PluginEffect.showToast start "info",
      PluginEffect.exec "echo \"插件批量命令 1\"",
      PluginEffect.showToast m0 (notifySeverity (exec 0)),
      PluginEffect.delay 500,
      PluginEffect.exec "echo \"插件批量命令 2\"",
      PluginEffect.showToast m1 (notifySeverity (exec 1)),
      PluginEffect.delay 500,
      PluginEffect.exec "echo \"插件批量命令 3\"",
      PluginEffect.showToast m2 (notifySeverity (exec 2)),
      PluginEffect.delay 500,
      PluginEffect.showToast done "success"]

/-- A rendering of a value as JSON text, for the sample host. -/
def sampleValueText : JsValue → String
  | .undefined => "undefined"
  | .null => "null"
  | .bool b => toString b
  | .num n => toString n
  | .nan => "null"
  | .str s => "\"" ++ s ++ "\""
  | .other json => json

/-- A rendering of an object as JSON text, for the sample host. -/
def sampleObjectText (o : JsObject) : String :=
  "\x7b" ++ ",".intercalate (o.map (fun e => "\"" ++ e.1 ++ "\":" ++ sampleValueText e.2))
    ++ "\x7d"

/-- A host whose storage holds the settings blob with `debugMode` only and no stats. Its
`JSON.parse` knows that blob and rejects every other text. -/
def samplePluginHost : PluginHost :=
  { jsonParse := fun text =>
      if text = "\x7b\"debugMode\":true\x7d" then
        Except.ok (Parsed.object [("debugMode", JsValue.bool true)])
      else Except.error "SyntaxError",
    jsonStringify := sampleObjectText,
    incrementOther := fun _ => JsValue.nan,
    getSetting := fun key =>
      if key = "examplePlugin.settings" then some "\x7b\"debugMode\":true\x7d" else none }

/-- A host whose storage holds, under the settings key, the text of a single opening brace,
which is not JSON. -/
def corruptPluginHost : PluginHost :=
  { samplePluginHost with
    getSetting := fun key => if key = "examplePlugin.settings" then some "\x7b" else none }

/-- A freshly constructed plugin that has made no host call yet. -/
def samplePluginWorld : PluginWorld :=
  { plugin := ExamplePlugin.new, trace := [] }

/-- Outcomes of the three executions of a batch: the second command fails. -/
def sampleOutcomes : Nat → ExecOutcome
  | 1 => ExecOutcome.returned false "" "not found"
  | _ => ExecOutcome.returned true "ok\n" ""

/-- Outcomes of the executions of a batch: the first one is rejected with undefined. -/
def nullishOutcomes : Nat → ExecOutcome
  | 0 => ExecOutcome.threw Thrown.nullish
  | _ => ExecOutcome.returned true "ok\n" ""

/-! ## Vocabulary of the properties of the stats and the views -/

/-- The calls of `api.setSetting` in a trace, in order, each as key and value. -/
def storageWrites (trace : List PluginEffect) : List (String × String) :=
  trace.filterMap (fun e =>
    match e with
    | .setSetting key value => some (key, value)
    | _ => none)

/-- The value most recently written under a key, if any was. -/
def lastWritten (key : String) (trace : List PluginEffect) : Option String :=
  (((storageWrites trace).filter (fun kv => kv.1 = key)).getLast?).map (fun kv => kv.2)

/-- From `w` to `w1` nothing was written to host storage and the fields of the plugin,
settings and stats among them, are as they were. -/
def quiet (w w1 : PluginWorld) : Prop :=
  w1.plugin = w.plugin ∧ storageWrites w1.trace = storageWrites w.trace

/-- What C11 says of a method that counts under the given keys, from `w` to `w1`: the value
most recently written under the stats key is the serialisation of the stats now; each
counter under these keys that held a number holds that number plus 1, and in general holds
the result of `++` on what it held; every other property of the stats is as it was. -/
def statsStep (host : PluginHost) (keys : List String) (w w1 : PluginWorld) : Prop :=
  lastWritten "examplePlugin.stats" w1.trace = some (host.jsonStringify w1.plugin.stats)
    ∧ (∀ key ∈ keys, ∀ n : Int, w.plugin.stats.read key = JsValue.num n →
        w1.plugin.stats.read key = JsValue.num (n + 1))
    ∧ (∀ key ∈ keys, w1.plugin.stats.read key = (w.plugin.stats.read key).increment host)
    ∧ (∀ key, key ∉ keys → w1.plugin.stats.get key = w.plugin.stats.get key)

/-! ## Vocabulary of the properties of initialization and of the registry -/

/-- The slots of the `api.addButton` calls in a trace, in order. -/
def buttonSlots (trace : List PluginEffect) : List String :=
  trace.filterMap (fun e =>
    match e with
    | .addButton slot _ _ _ => some slot
    | _ => none)

/-- The names of the `api.addHook` calls in a trace, in order. -/
def hookNames (trace : List PluginEffect) : List String :=
  trace.filterMap (fun e =>
    match e with
    | .addHook name _ => some name
    | _ => none)

/-- The notifications in a trace, in order, each as message and severity. -/
def toasts (trace : List PluginEffect) : List (String × String) :=
  trace.filterMap (fun e =>
    match e with
    | .showToast message type => some (message, type)
    | _ => none)

/-- The host calls of one `init`: the four buttons, the four hooks, then the load
notification and the debug log line when asked for. -/
def initCalls (notify debug : Bool) : List PluginEffect :=
  [PluginEffect.addButton "header" "tune" "插件设置" ButtonAction.showPluginSettings,
   PluginEffect.addButton "header" "analytics" "使用统计" ButtonAction.showStatistics,
   PluginEffect.addButton "sidebar" "flash_on" "快速操作" ButtonAction.showQuickActions,
   PluginEffect.addButton "bottom" "info" "插件信息" ButtonAction.showPluginInfo,
   PluginEffect.addHook "page:loaded" HookCallback.onPageLoaded,
   PluginEffect.addHook "example-page:shown" HookCallback.onExamplePageShown,
   PluginEffect.addHook "example-page:cleanup" HookCallback.onExamplePageCleanup,
   PluginEffect.addHook "app:ready" HookCallback.onAppReady]
    ++ (if notify then [PluginEffect.showToast "示例插件已加载" "success"] else [])
    ++ (if debug then [PluginEffect.logDebug "Example plugin initialized" "PLUGIN"] else [])

/-- The eight ids `addEventListeners` looks up, in the order of its blocks, each with the
method its handler calls. -/
def listenerIds : List (String × HandlerKind) :=
  [("increment-btn", HandlerKind.incrementCounter),
   ("decrement-btn", HandlerKind.decrementCounter),
   ("reset-btn", HandlerKind.resetCounter),
   ("toast-btn", HandlerKind.showToastExample),
   ("dialog-btn", HandlerKind.showDialogExample),
   ("command-btn", HandlerKind.execCommandExample),
   ("add-item-btn", HandlerKind.addItem),
   ("item-list", HandlerKind.removeHandler)]

/-- One record per id whose element is present in the document, in the order of the ids,
each with a click handler that is a new closure; `next` is the identity of the first. -/
def recordsFrom (dom : Dom) : List (String × HandlerKind) → Nat → List ListenerRecord
  | [], _ => []
  | (id, kind) :: rest, next =>
    match getElementById dom id with
    | some el =>
      { element := some el, event := "click", handler := { kind := kind, closure := next } }
        :: recordsFrom dom rest (next + 1)
    | none => recordsFrom dom rest next

/-- The records one call of `onShow` adds on a document. -/
def newRecords (dom : Dom) (next : Nat) : List ListenerRecord :=
  recordsFrom dom listenerIds next

/-- The `addEventListener` calls that attach the handlers of the records to their
elements. -/
def attachEffects (records : List ListenerRecord) : List Effect :=
  records.filterMap (fun r =>
    r.element.map (fun el => Effect.addEventListener el r.event r.handler))

/-- The listeners attached since the last cleanup, read off a trace: every
`addEventListener` call adds its listener, and the log line with which `cleanup` starts
begins anew. -/
def registryOf (trace : List Effect) : List ListenerRecord :=
  trace.foldl (fun acc e =>
    match e with
    | .addEventListener el event handler =>
      acc ++ [{ element := some el, event := event, handler := handler }]
    | .logDebug message _ => if message = "Example page cleanup" then [] else acc
    | _ => acc) []

/-- A call of `onShow` or of `cleanup`. -/
inductive LifecycleOp where
  | onShow
  | cleanup
  deriving DecidableEq, Repr

/-- A sequence of `onShow` and `cleanup` calls, made one after the other. -/
def lifecycle (h : Host) : List LifecycleOp → World → Except String World
  | [], w => Except.ok w
  | .onShow :: rest, w => lifecycle h rest (onShow h w)
  | .cleanup :: rest, w =>
    match cleanup h w with
    | .ok w1 => lifecycle h rest w1
    | .error e => Except.error e

/-! ## Lemmas on the document -/

theorem getElementById_setTextContent (d : Dom) (el : Nat) (v id : String) :
    getElementById (setTextContent d el v) id = getElementById d id := by
  induction d generalizing el with
  | nil => simp [setTextContent, getElementById]
  | cons n ns ih =>
    cases el with
    | zero => simp [setTextContent, getElementById]
    | succ k => simp [setTextContent, getElementById, ih]

theorem textContentOf_setTextContent (d : Dom) (id v : String) (el : Nat)
    (hel : getElementById d id = some el) :
    textContentOf (setTextContent d el v) el = some v := by
  induction d generalizing el with
  | nil => simp [getElementById] at hel
  | cons n ns ih =>
    simp only [getElementById] at hel
    split at hel
    · cases hel
      simp [setTextContent, textContentOf]
    · cases hq : getElementById ns id with
      | none => simp [hq] at hel
      | some k =>
        simp [hq] at hel
        subst hel
        have := ih k hq
        simpa [setTextContent, textContentOf] using this

theorem updateCounterDisplay_counter (w : World) :
    (updateCounterDisplay w).page = w.page := by
  unfold updateCounterDisplay
  split <;> rfl

theorem updateCounterDisplay_shows (w : World) (el : Nat)
    (hel : getElementById (updateCounterDisplay w).dom "counter-value" = some el) :
    textContentOf (updateCounterDisplay w).dom el = some (toString w.page.data.counter) := by
  unfold updateCounterDisplay at hel ⊢
  split at hel
  · next cv hcv =>
    simp only [hcv]
    simp only [getElementById_setTextContent] at hel
    have : cv = el := by rw [hcv] at hel; exact Option.some.inj hel
    subst this
    exact textContentOf_setTextContent _ _ _ _ hcv
  · next hnone => rw [hnone] at hel; cases hel

theorem applyCounterOp_counter (h : Host) (op : CounterOp) (w : World) :
    (applyCounterOp h op w).page.data.counter =
      match op with
      | .increment => w.page.data.counter + 1
      | .decrement => w.page.data.counter - 1
      | .reset => 0 := by
  cases op <;>
    simp [applyCounterOp, incrementCounter, decrementCounter, resetCounter, World.showToast,
      updateCounterDisplay_counter, World.setCounter]

theorem applyCounterOp_shows (h : Host) (op : CounterOp) (w : World) (el : Nat)
    (hel : getElementById (applyCounterOp h op w).dom "counter-value" = some el) :
    textContentOf (applyCounterOp h op w).dom el
      = some (toString (applyCounterOp h op w).page.data.counter) := by
  cases op <;>
    simp only [applyCounterOp, incrementCounter, decrementCounter, resetCounter,
      World.showToast] at hel ⊢ <;>
    rw [updateCounterDisplay_shows _ _ hel, updateCounterDisplay_counter]

theorem runCounterOps_counter_aux (h : Host) (ops acc : List CounterOp) (w : World)
    (hacc : w.page.data.counter = netCount acc) :
    (runCounterOps h ops w).page.data.counter
      = netCount (ops.foldl (fun acc op => if op = CounterOp.reset then [] else acc ++ [op]) acc) := by
  induction ops generalizing acc w with
  | nil => simpa [runCounterOps] using hacc
  | cons op ops ih =>
    simp only [runCounterOps, List.foldl_cons]
    apply ih
    rw [applyCounterOp_counter]
    cases op <;> simp [netCount, List.count_append, hacc] <;> ring

/-! ## Properties of the page -/

/-- C1: after any sequence of counter calls from counter 0 the counter is the number of
increments minus the number of decrements since the most recent reset, with no clamping (one
decrement from 0 gives -1), and after each call the element `counter-value`, when present,
shows the counter. -/
theorem counter_is_net_since_last_reset (h : Host) (w : World) (ops : List CounterOp)
    (h0 : w.page.data.counter = 0) :
    (runCounterOps h ops w).page.data.counter
        = ((sinceLastReset ops).count CounterOp.increment : Int)
          - ((sinceLastReset ops).count CounterOp.decrement : Int)
      ∧ (runCounterOps h [CounterOp.decrement] w).page.data.counter = -1
      ∧ ∀ (op : CounterOp) (w0 : World) (el : Nat),
          getElementById (applyCounterOp h op w0).dom "counter-value" = some el →
          textContentOf (applyCounterOp h op w0).dom el
            = some (toString (applyCounterOp h op w0).page.data.counter) := by
  refine ⟨?_, ?_, fun op w0 el hel => applyCounterOp_shows h op w0 el hel⟩
  · have := runCounterOps_counter_aux h ops [] w (by simpa [netCount] using h0)
    simpa [netCount, sinceLastReset] using this
  · simp [runCounterOps, applyCounterOp_counter, h0]

theorem updateItemList_page (h : Host) (w : World) : (updateItemList h w).page = w.page := by
  unfold updateItemList
  split <;> rfl

theorem splice_one_eq_eraseIdx {α : Type} (xs : List α) (i : Int) (h0 : 0 ≤ i)
    (h1 : i < xs.length) : splice xs (JsNumber.int i) 1 = xs.eraseIdx i.toNat := by
  obtain ⟨k, rfl⟩ := Int.eq_ofNat_of_zero_le h0
  have hk : k < xs.length := by exact_mod_cast h1
  have e1 : ¬ ((k : Int) < 0) := by omega
  have e2 : min (k : Int) (xs.length : Int) = k := by omega
  have e3 : min (max (1 : Int) 0) ((xs.length : Int) - k) = 1 := by omega
  simp only [splice, JsNumber.toInteger, e1, if_false, e2, e3]
  have e4 : ((k : Int) + 1).toNat = k + 1 := by omega
  rw [e4, Int.toNat_ofNat, List.eraseIdx_eq_take_drop_succ]

/-- C2: for an integer index inside the list, `removeItem` leaves the list with exactly the
entry at that position erased, the others kept in order, so one entry shorter. -/
theorem removeItem_erases_entry (h : Host) (w : World) (i : Int) (h0 : 0 ≤ i)
    (h1 : i < w.page.data.items.length) :
    (removeItem h (JsNumber.int i) w).page.data.items = w.page.data.items.eraseIdx i.toNat
      ∧ (removeItem h (JsNumber.int i) w).page.data.items.length + 1
          = w.page.data.items.length := by
  have hitems : (removeItem h (JsNumber.int i) w).page.data.items
      = w.page.data.items.eraseIdx i.toNat := by
    simp [removeItem, JsNumber.ge, JsNumber.lt, h0, h1, World.showToast, updateItemList_page,
      World.setItems, splice_one_eq_eraseIdx _ i h0 h1]
  refine ⟨hitems, ?_⟩
  have hlt : i.toNat < w.page.data.items.length := by omega
  rw [hitems, List.length_eraseIdx]
  simp [hlt]
  omega

/-- C3: for an index outside the list (negative, at or beyond the length, or NaN)
`removeItem` changes nothing at all: the items, the document and the trace of host calls
are as before; so repeating the call any number of times is the same as making it once. -/
theorem removeItem_out_of_range_noop (h : Host) (w : World) (index : JsNumber) (n : Nat)
    (hout : index = JsNumber.nan
      ∨ ∃ i : Int, index = JsNumber.int i ∧ (i < 0 ∨ (w.page.data.items.length : Int) ≤ i)) :
    removeItem h index w = w
      ∧ (removeItem h index)^[n + 1] w = removeItem h index w := by
  have hone : removeItem h index w = w := by
    rcases hout with rfl | ⟨i, rfl, hi⟩
    · simp [removeItem, JsNumber.ge]
    · rcases hi with hi | hi
      · have : ¬ (0 ≤ i) := by omega
        simp [removeItem, JsNumber.ge, this]
      · have : ¬ (i < (w.page.data.items.length : Int)) := by omega
        simp [removeItem, JsNumber.lt, this]
  refine ⟨hone, ?_⟩
  rw [hone]
  exact Function.iterate_fixed hone (n + 1)

theorem jsTrim_eq_empty_of_all_white (s : String)
    (hs : ∀ c ∈ s.data, isJsWhiteSpace c = true) : jsTrim s = "" := by
  have : s.data.dropWhile isJsWhiteSpace = [] := by
    rw [List.dropWhile_eq_nil_iff]
    exact hs
  simp [jsTrim, this]

theorem addItem_items (h : Host) (w : World) (s now : String) (hs : jsTrim s ≠ "") :
    (addItem h (some s) now w).page.data.items
      = w.page.data.items ++ [{ text := jsTrim s, time := now }] := by
  have hne : s ≠ "" := by
    intro he
    apply hs
    subst he
    rfl
  simp [addItem, hs, hne, World.showToast, updateItemList_page, World.setItems]

/-- C4: when the input dialog returns a string whose trimmed form is not empty, `addItem`
leaves the list as it was followed by one new entry, whose text is the trimmed string and
whose time is the locale time string of the clock. -/
theorem addItem_appends_trimmed (h : Host) (w : World) (s now : String)
    (hs : jsTrim s ≠ "") :
    (addItem h (some s) now w).page.data.items
      = w.page.data.items ++ [{ text := jsTrim s, time := now }] :=
  addItem_items h w s now hs

/-- C5: when the input dialog returns null, the empty string or a string of white space
only, `addItem` does nothing beyond having shown the dialog: the page fields and the
document are unchanged and the only host call added to the trace is the prompt itself, so
there is no re-rendering and no notification. -/
theorem addItem_blank_noop (h : Host) (w : World) (answer : Option String) (now : String)
    (hblank : answer = none ∨ ∃ s, answer = some s ∧ ∀ c ∈ s.data, isJsWhiteSpace c = true) :
    (addItem h answer now w).page = w.page
      ∧ (addItem h answer now w).dom = w.dom
      ∧ (addItem h answer now w).trace
          = w.trace ++ [Effect.showInput (h.t "examplePage.list.addTitle" [])
              (h.t "examplePage.list.addMessage" []) (h.t "examplePage.list.addPlaceholder" [])] := by
  rcases hblank with rfl | ⟨s, rfl, hs⟩
  · simp [addItem]
  · have := jsTrim_eq_empty_of_all_white s hs
    simp [addItem, this]

/-! ## Lemmas on the scan of markup -/

theorem scanEnd_append (st : Scan) (a b : List Char) :
    scanEnd st (a ++ b) = scanEnd (scanEnd st a) b := by
  simp [scanEnd, List.foldl_append]

theorem scanFrom_append (st : Scan) (a b : List Char) :
    scanFrom st (a ++ b) = scanFrom st a ++ scanFrom (scanEnd st a) b := by
  induction a generalizing st with
  | nil => simp [scanFrom, scanEnd]
  | cons c cs ih => simp [scanFrom, scanEnd, ih, List.append_assoc]

theorem Scans.append {st s1 s2 : Scan} {a b : List Char} {o1 o2 : List (List Char)}
    (ha : Scans st a o1 s1) (hb : Scans s1 b o2 s2) : Scans st (a ++ b) (o1 ++ o2) s2 := by
  obtain ⟨ha1, ha2⟩ := ha
  obtain ⟨hb1, hb2⟩ := hb
  refine ⟨?_, ?_⟩
  · rw [scanFrom_append, ha1, ha2, hb1]
  · rw [scanEnd_append, ha2, hb2]

theorem scans_text (cs : List Char) (hcs : '<' ∉ cs) : Scans Scan.text cs [] Scan.text := by
  induction cs with
  | nil => exact ⟨rfl, rfl⟩
  | cons c cs ih =>
    have hc : c ≠ '<' := fun e => hcs (by simp [e])
    have hrest : '<' ∉ cs := fun m => hcs (List.mem_cons_of_mem _ m)
    obtain ⟨h1, h2⟩ := ih hrest
    refine ⟨?_, ?_⟩
    · simp [scanFrom, Scan.emit, Scan.next, hc, h1]
    · simpa [scanEnd, Scan.next, hc] using h2

theorem scans_quoted (buf cs : List Char) (hcs : '"' ∉ cs) :
    Scans (Scan.quoted buf) cs [] (Scan.quoted (buf ++ cs)) := by
  induction cs generalizing buf with
  | nil => exact ⟨rfl, by simp [scanEnd]⟩
  | cons c cs ih =>
    have hc : c ≠ '"' := fun e => hcs (by simp [e])
    have hrest : '"' ∉ cs := fun m => hcs (List.mem_cons_of_mem _ m)
    obtain ⟨h1, h2⟩ := ih (buf ++ [c]) hrest
    refine ⟨?_, ?_⟩
    · simp [scanFrom, Scan.emit, Scan.next, hc, h1]
    · simpa [scanEnd, Scan.next, hc] using h2

theorem scans_close (buf : List Char) :
    Scans (Scan.quoted buf) "\">".data [buf ++ ['"']] Scan.text := by
  show Scans (Scan.quoted buf) ['"', '>'] [buf ++ ['"']] Scan.text
  refine ⟨?_, ?_⟩
  · simp [scanFrom, Scan.emit, Scan.next]
  · simp [scanEnd, Scan.next]

theorem digitChar_isDigit : ∀ d : Nat, d < 10 → (Nat.digitChar d).isDigit = true := by
  decide

theorem toDigitsCore_isDigit (fuel n : Nat) (ds : List Char)
    (hds : ∀ c ∈ ds, c.isDigit = true) :
    ∀ c ∈ Nat.toDigitsCore 10 fuel n ds, c.isDigit = true := by
  induction fuel generalizing n ds with
  | zero => simpa [Nat.toDigitsCore] using hds
  | succ f ih =>
    have hd : (Nat.digitChar (n % 10)).isDigit = true :=
      digitChar_isDigit _ (Nat.mod_lt _ (by decide))
    have hcons : ∀ c ∈ Nat.digitChar (n % 10) :: ds, c.isDigit = true := by
      intro c hc
      rcases List.mem_cons.mp hc with rfl | hc
      · exact hd
      · exact hds c hc
    simp only [Nat.toDigitsCore]
    split
    · exact hcons
    · exact ih _ _ hcons

theorem toString_nat_isDigit (k : Nat) : ∀ c ∈ (toString k).data, c.isDigit = true := by
  show ∀ c ∈ (Nat.repr k).data, c.isDigit = true
  simp only [Nat.repr, Nat.toDigits, List.asString]
  exact toDigitsCore_isDigit _ _ _ (by simp)

theorem toString_nat_no_quote (k : Nat) : '"' ∉ (toString k).data := fun hm =>
  absurd (toString_nat_isDigit k _ hm) (by decide)

theorem scans_renderItem (h : Host) (index : Nat) (item : Item)
    (ht : markupFree (h.t "examplePage.list.remove" []))
    (htext : markupFree item.text) (htime : markupFree item.time) :
    Scans Scan.text (renderItem h index item).data (itemTags index) Scan.text := by
  have c1 : Scans Scan.text "\n      <div class=\"list-item\" data-index=\"".data []
      (Scan.quoted "div class=\"list-item\" data-index=\"".data) := ⟨rfl, rfl⟩
  have c2 : Scans Scan.text "\n        <span class=\"item-text\">".data
      ["span class=\"item-text\"".data] Scan.text := ⟨rfl, rfl⟩
  have c3 : Scans Scan.text "</span>".data [] Scan.text := ⟨rfl, rfl⟩
  have c4 : Scans Scan.text "\n        <span class=\"item-time\">".data
      ["span class=\"item-time\"".data] Scan.text := ⟨rfl, rfl⟩
  have c5 : Scans Scan.text
      "\n        <button class=\"btn btn-small btn-danger remove-item\" data-index=\"".data []
      (Scan.quoted "button class=\"btn btn-small btn-danger remove-item\" data-index=\"".data) :=
    ⟨rfl, rfl⟩
  have c6 : Scans Scan.text "\n          ".data [] Scan.text := ⟨rfl, rfl⟩
  have c7 : Scans Scan.text "\n        </button>".data [] Scan.text := ⟨rfl, rfl⟩
  have c8 : Scans Scan.text "\n      </div>".data [] Scan.text := ⟨rfl, rfl⟩
  have c9 : Scans Scan.text "\n    ".data [] Scan.text := ⟨rfl, rfl⟩
  have hq := toString_nat_no_quote index
  have key :=
    (((((((((((((((c1.append (scans_quoted _ _ hq)).append (scans_close _)).append c2).append
      (scans_text _ htext)).append c3).append c4).append (scans_text _ htime)).append c3).append
      c5).append (scans_quoted _ _ hq)).append (scans_close _)).append c6).append
      (scans_text _ ht)).append c7).append c8).append c9
  simp only [renderItem, String.data_append]
  exact key

theorem scans_renderItems (h : Host) (items : List Item) (k : Nat)
    (ht : markupFree (h.t "examplePage.list.remove" []))
    (hi : ∀ it ∈ items, markupFree it.text ∧ markupFree it.time) :
    Scans Scan.text (String.join ((items.enumFrom k).map (fun p => renderItem h p.1 p.2))).data
      ((List.range' k items.length).map itemTags).flatten Scan.text := by
  induction items generalizing k with
  | nil => exact ⟨rfl, rfl⟩
  | cons it rest ih =>
    have hit := hi it (List.mem_cons_self _ _)
    have hrest := ih (k + 1) (fun x hx => hi x (List.mem_cons_of_mem _ hx))
    have hhead := scans_renderItem h k it ht hit.1 hit.2
    have := hhead.append hrest
    simpa [String.data_join, List.enumFrom_cons, List.range'_succ] using this

theorem findAfter_length (pat a r : List Char) (hf : findAfter pat a = some r) :
    pat.length ≤ a.length := by
  induction a with
  | nil => simp [findAfter] at hf
  | cons c cs ih =>
    simp only [findAfter] at hf
    split at hf
    · next hp => exact (List.isPrefixOf_iff_prefix.mp hp).length_le
    · have := ih hf
      simp only [List.length_cons]
      omega

theorem findAfter_append (pat a b r : List Char) (hf : findAfter pat a = some r) :
    findAfter pat (a ++ b) = some (r ++ b) := by
  induction a with
  | nil => simp [findAfter] at hf
  | cons c cs ih =>
    simp only [findAfter] at hf
    split at hf
    · next hp =>
      have hpre : pat <+: c :: cs := List.isPrefixOf_iff_prefix.mp hp
      have hpre2 : pat <+: (c :: cs) ++ b := hpre.trans (List.prefix_append _ _)
      have hlen : pat.length ≤ (c :: cs).length := hpre.length_le
      cases hf
      simp only [List.cons_append] at hpre2 ⊢
      simp only [findAfter, List.isPrefixOf_iff_prefix.mpr hpre2, if_true]
      rw [← List.cons_append, List.drop_append_of_le_length hlen]
    · next hp =>
      have hlen := findAfter_length pat cs r hf
      have hnot : ¬ (pat <+: (c :: cs) ++ b) := by
        intro hpre2
        apply hp
        apply List.isPrefixOf_iff_prefix.mpr
        exact List.prefix_of_prefix_length_le hpre2 (List.prefix_append _ _)
          (by simp only [List.length_cons]; omega)
      have hnot2 : pat.isPrefixOf (c :: (cs ++ b)) = false := by
        cases hb : pat.isPrefixOf (c :: (cs ++ b)) with
        | false => rfl
        | true => exact absurd (List.isPrefixOf_iff_prefix.mp hb) hnot
      show findAfter pat (c :: (cs ++ b)) = some (r ++ b)
      rw [findAfter, hnot2]
      simpa using ih hf

theorem takeWhile_append_of_stop {p : Char → Bool} (r x : List Char)
    (hstop : ∃ c ∈ r, p c = false) : (r ++ x).takeWhile p = r.takeWhile p := by
  induction r with
  | nil => simp at hstop
  | cons c cs ih =>
    cases hc : p c with
    | false => simp [List.takeWhile, hc]
    | true =>
      obtain ⟨d, hd, hpd⟩ := hstop
      rcases List.mem_cons.mp hd with rfl | hd
      · rw [hc] at hpd; cases hpd
      · simp [List.takeWhile, hc, ih ⟨d, hd, hpd⟩]

theorem attrValue_append (name : String) (tag x r : List Char)
    (hf : findAfter (' ' :: name.data ++ ['=', '"']) tag = some r) (hq : '"' ∈ r) :
    attrValue name (tag ++ x) = some (r.takeWhile (fun c => c != '"')) := by
  unfold attrValue
  rw [findAfter_append _ _ _ _ hf]
  simp only [Option.map_some', Option.some.injEq]
  exact takeWhile_append_of_stop r x ⟨'"', hq, by decide⟩

theorem attrValue_append_end (name : String) (tag ds : List Char)
    (hf : findAfter (' ' :: name.data ++ ['=', '"']) tag = some []) (hds : '"' ∉ ds) :
    attrValue name (tag ++ ds ++ ['"']) = some ds := by
  unfold attrValue
  rw [List.append_assoc, findAfter_append _ _ _ _ hf]
  simp only [Option.map_some', Option.some.injEq, List.nil_append]
  rw [List.takeWhile_append_of_pos]
  · simp [List.takeWhile]
  · intro c hc
    have : c ≠ '"' := fun e => hds (e ▸ hc)
    simpa using this

theorem listItemTag_facts (i : Nat) :
    hasClass "list-item" (listItemTag i) = true
      ∧ hasClass "remove-item" (listItemTag i) = false
      ∧ dataIndex (listItemTag i) = some (toString i) := by
  have hclass : attrValue "class" (listItemTag i) = some "list-item".data := by
    unfold listItemTag
    rw [List.append_assoc]
    exact attrValue_append "class" "div class=\"list-item\" data-index=\"".data _
      "list-item\" data-index=\"".data rfl (by decide)
  have hindex : attrValue "data-index" (listItemTag i) = some (toString i).data :=
    attrValue_append_end "data-index" "div class=\"list-item\" data-index=\"".data _ rfl
      (toString_nat_no_quote i)
  refine ⟨?_, ?_, ?_⟩
  · simp only [hasClass, hclass]; rfl
  · simp only [hasClass, hclass]; rfl
  · simp only [dataIndex, hindex]; rfl

theorem removeButtonTag_facts (i : Nat) :
    hasClass "list-item" (removeButtonTag i) = false
      ∧ hasClass "remove-item" (removeButtonTag i) = true
      ∧ dataIndex (removeButtonTag i) = some (toString i) := by
  have hclass : attrValue "class" (removeButtonTag i)
      = some "btn btn-small btn-danger remove-item".data := by
    unfold removeButtonTag
    rw [List.append_assoc]
    exact attrValue_append "class"
      "button class=\"btn btn-small btn-danger remove-item\" data-index=\"".data _
      "btn btn-small btn-danger remove-item\" data-index=\"".data rfl (by decide)
  have hindex : attrValue "data-index" (removeButtonTag i) = some (toString i).data :=
    attrValue_append_end "data-index"
      "button class=\"btn btn-small btn-danger remove-item\" data-index=\"".data _ rfl
      (toString_nat_no_quote i)
  refine ⟨?_, ?_, ?_⟩
  · simp only [hasClass, hclass]; rfl
  · simp only [hasClass, hclass]; rfl
  · simp only [dataIndex, hindex]; rfl

theorem itemTags_elements (k n : Nat) :
    ((((List.range' k n).map itemTags).flatten.filter (hasClass "list-item")).map dataIndex
        = (List.range' k n).map (fun i => some (toString i)))
      ∧ ((((List.range' k n).map itemTags).flatten.filter (hasClass "remove-item")).map
          dataIndex = (List.range' k n).map (fun i => some (toString i))) := by
  have s1 : hasClass "list-item" "span class=\"item-text\"".data = false := rfl
  have s2 : hasClass "list-item" "span class=\"item-time\"".data = false := rfl
  have s3 : hasClass "remove-item" "span class=\"item-text\"".data = false := rfl
  have s4 : hasClass "remove-item" "span class=\"item-time\"".data = false := rfl
  induction n generalizing k with
  | zero => simp
  | succ n ih =>
    obtain ⟨a1, a2, a3⟩ := listItemTag_facts k
    obtain ⟨b1, b2, b3⟩ := removeButtonTag_facts k
    obtain ⟨ih1, ih2⟩ := ih (k + 1)
    simp only [List.range'_succ, List.map_cons, List.flatten_cons, List.filter_append,
      List.map_append]
    rw [ih1, ih2]
    simp [itemTags, List.filter_cons, a1, a2, a3, b1, b2, b3, s1, s2, s3, s4]

theorem startTags_renderItemList_nil (h : Host)
    (hempty : markupFree (h.t "examplePage.list.empty" [])) :
    startTags (renderItemList h []) = ["p class=\"empty-message\"".data] := by
  have c1 : Scans Scan.text "<p class=\"empty-message\">".data
      ["p class=\"empty-message\"".data] Scan.text := ⟨rfl, rfl⟩
  have c2 : Scans Scan.text "</p>".data [] Scan.text := ⟨rfl, rfl⟩
  have key := (c1.append (scans_text _ hempty)).append c2
  have hr : renderItemList h []
      = "<p class=\"empty-message\">" ++ h.t "examplePage.list.empty" [] ++ "</p>" := rfl
  rw [hr]
  simp only [startTags, String.data_append]
  exact key.1

theorem startTags_renderItemList (h : Host) (items : List Item) (hne : items ≠ [])
    (ht : markupFree (h.t "examplePage.list.remove" []))
    (hi : ∀ it ∈ items, markupFree it.text ∧ markupFree it.time) :
    startTags (renderItemList h items) = ((List.range items.length).map itemTags).flatten := by
  have hlen : items.length ≠ 0 := by
    intro e
    exact hne (List.length_eq_zero.mp e)
  have := (scans_renderItems h items 0 ht hi).1
  simpa [startTags, renderItemList, hlen, List.enum, List.range_eq_range'] using this

theorem elements_renderItemList (h : Host) (items : List Item)
    (ht : markupFree (h.t "examplePage.list.remove" []))
    (hempty : markupFree (h.t "examplePage.list.empty" []))
    (hi : ∀ it ∈ items, markupFree it.text ∧ markupFree it.time) :
    ((elementsOfClass "list-item" (renderItemList h items)).map dataIndex
        = (List.range items.length).map (fun k => some (toString k)))
      ∧ ((elementsOfClass "remove-item" (renderItemList h items)).map dataIndex
        = (List.range items.length).map (fun k => some (toString k))) := by
  by_cases hne : items = []
  · subst hne
    have p1 : hasClass "list-item" "p class=\"empty-message\"".data = false := rfl
    have p2 : hasClass "remove-item" "p class=\"empty-message\"".data = false := rfl
    simp [elementsOfClass, startTags_renderItemList_nil h hempty, List.filter_cons, p1, p2]
  · simp only [elementsOfClass, startTags_renderItemList h items hne ht hi,
      List.range_eq_range']
    exact itemTags_elements 0 items.length

theorem markupFree_jsTrim (s : String) (hs : markupFree s) : markupFree (jsTrim s) := by
  intro hm
  apply hs
  simp only [jsTrim, List.mem_reverse] at hm
  have h1 := (List.dropWhile_suffix isJsWhiteSpace).mem hm
  rw [List.mem_reverse] at h1
  exact (List.dropWhile_suffix isJsWhiteSpace).mem h1

/-- C6, as stated, fails: the text of an item is put into the fragment as markup, so an item
whose text is itself a `list-item` element makes the fragment of a one-item list hold two
elements of class `list-item`. -/
theorem renderItemList_markup_text_adds_element :
    [markupItem].length = 1
      ∧ (elementsOfClass "list-item" (renderItemList sampleHost [markupItem])).length = 2 :=
  ⟨rfl, rfl⟩

/-- C6, amended: when the texts and times of the items and the two localized labels the
fragment uses contain no `<`, the fragment of `renderItemList` has exactly one element of
class `list-item` and one `remove-item` button per item, the k-th carrying data-index k; for
the empty list it is the single empty-message paragraph; and after a successful `addItem`
of such a text the fragment has one more `list-item` element than before. -/
theorem renderItemList_one_element_per_item (h : Host) (w : World)
    (ht : markupFree (h.t "examplePage.list.remove" []))
    (hempty : markupFree (h.t "examplePage.list.empty" []))
    (hi : ∀ it ∈ w.page.data.items, markupFree it.text ∧ markupFree it.time) :
    (elementsOfClass "list-item" (renderItemList h w.page.data.items)).length
        = w.page.data.items.length
      ∧ (elementsOfClass "remove-item" (renderItemList h w.page.data.items)).length
        = w.page.data.items.length
      ∧ (elementsOfClass "list-item" (renderItemList h w.page.data.items)).map dataIndex
        = (List.range w.page.data.items.length).map (fun k => some (toString k))
      ∧ (elementsOfClass "remove-item" (renderItemList h w.page.data.items)).map dataIndex
        = (List.range w.page.data.items.length).map (fun k => some (toString k))
      ∧ (w.page.data.items = [] →
          renderItemList h w.page.data.items
              = "<p class=\"empty-message\">" ++ h.t "examplePage.list.empty" [] ++ "</p>"
            ∧ startTags (renderItemList h w.page.data.items)
              = ["p class=\"empty-message\"".data])
      ∧ ∀ s now : String, jsTrim s ≠ "" → markupFree s → markupFree now →
          (elementsOfClass "list-item"
              (renderItemList h (addItem h (some s) now w).page.data.items)).length
            = (elementsOfClass "list-item" (renderItemList h w.page.data.items)).length + 1 := by
  obtain ⟨e1, e2⟩ := elements_renderItemList h w.page.data.items ht hempty hi
  have n1 : (elementsOfClass "list-item" (renderItemList h w.page.data.items)).length
      = w.page.data.items.length := by
    simpa using congrArg List.length e1
  have n2 : (elementsOfClass "remove-item" (renderItemList h w.page.data.items)).length
      = w.page.data.items.length := by
    simpa using congrArg List.length e2
  refine ⟨n1, n2, e1, e2, ?_, ?_⟩
  · intro hnil
    rw [hnil]
    exact ⟨rfl, startTags_renderItemList_nil h hempty⟩
  · intro s now hs hms hmnow
    have hitems := addItem_items h w s now hs
    have hi2 : ∀ it ∈ w.page.data.items ++ [{ text := jsTrim s, time := now }],
        markupFree it.text ∧ markupFree it.time := by
      intro it hit
      rcases List.mem_append.mp hit with hit | hit
      · exact hi it hit
      · rw [List.mem_singleton] at hit
        subst hit
        exact ⟨markupFree_jsTrim s hms, hmnow⟩
    obtain ⟨f1, _⟩ := elements_renderItemList h _ ht hempty hi2
    rw [hitems, n1]
    simpa using congrArg List.length f1

/-! ## Instances of the properties of the page -/

/-- C1 on a sample: increment, reset, decrement, decrement from a fresh page. -/
theorem counter_is_net_since_last_reset_witness :
    sampleWorld.page.data.counter = 0
      ∧ (runCounterOps sampleHost
            [CounterOp.increment, CounterOp.reset, CounterOp.decrement, CounterOp.decrement]
            sampleWorld).page.data.counter
          = ((sinceLastReset
              [CounterOp.increment, CounterOp.reset, CounterOp.decrement,
                CounterOp.decrement]).count CounterOp.increment : Int)
            - ((sinceLastReset
              [CounterOp.increment, CounterOp.reset, CounterOp.decrement,
                CounterOp.decrement]).count CounterOp.decrement : Int) :=
  ⟨rfl, (counter_is_net_since_last_reset sampleHost sampleWorld _ rfl).1⟩

/-- C2 on a sample: index 1 of a list of two items. -/
theorem removeItem_erases_entry_witness :
    (0 : Int) ≤ 1 ∧ (1 : Int) < sampleWorldTwoItems.page.data.items.length
      ∧ (removeItem sampleHost (JsNumber.int 1) sampleWorldTwoItems).page.data.items
          = sampleWorldTwoItems.page.data.items.eraseIdx (1 : Int).toNat :=
  ⟨by decide, by decide,
    (removeItem_erases_entry sampleHost sampleWorldTwoItems 1 (by decide) (by decide)).1⟩

/-- C3 on a sample: index 5 of a list of two items. -/
theorem removeItem_out_of_range_noop_witness :
    (sampleWorldTwoItems.page.data.items.length : Int) ≤ 5
      ∧ removeItem sampleHost (JsNumber.int 5) sampleWorldTwoItems = sampleWorldTwoItems :=
  ⟨by decide,
    (removeItem_out_of_range_noop sampleHost sampleWorldTwoItems (JsNumber.int 5) 2
      (Or.inr ⟨5, rfl, Or.inr (by decide)⟩)).1⟩

/-- C4 on a sample: an answer with white space around the word. -/
theorem addItem_appends_trimmed_witness :
    jsTrim "  tea \n" ≠ ""
      ∧ (addItem sampleHost (some "  tea \n") "10:10:00" sampleWorldTwoItems).page.data.items
          = sampleWorldTwoItems.page.data.items
            ++ [{ text := jsTrim "  tea \n", time := "10:10:00" }] :=
  ⟨by decide, addItem_appends_trimmed sampleHost sampleWorldTwoItems _ _ (by decide)⟩

/-- C5 on a sample: an answer of white space only. -/
theorem addItem_blank_noop_witness :
    (∀ c ∈ " \t\n".data, isJsWhiteSpace c = true)
      ∧ (addItem sampleHost (some " \t\n") "10:10:00" sampleWorldTwoItems).page
          = sampleWorldTwoItems.page :=
  ⟨by decide,
    (addItem_blank_noop sampleHost sampleWorldTwoItems (some " \t\n") "10:10:00"
      (Or.inr ⟨_, rfl, by decide⟩)).1⟩

/-- C6, amended, on a sample: a list of two items without markup. -/
theorem renderItemList_one_element_per_item_witness :
    (∀ it ∈ sampleWorldTwoItems.page.data.items, markupFree it.text ∧ markupFree it.time)
      ∧ (elementsOfClass "list-item"
            (renderItemList sampleHost sampleWorldTwoItems.page.data.items)).length
          = sampleWorldTwoItems.page.data.items.length :=
  ⟨by decide,
    (renderItemList_one_element_per_item sampleHost sampleWorldTwoItems (by decide) (by decide)
      (by decide)).1⟩

/-! ## Properties of the listener registry -/

theorem foldlM_detach (records : List ListenerRecord) (trace : List Effect) :
    records.foldlM detach trace
      = Except.ok (trace ++ records.filterMap (fun r =>
          r.element.map (fun el => Effect.removeEventListener el r.event r.handler))) := by
  induction records generalizing trace with
  | nil => simp [pure, Except.pure]
  | cons r rest ih =>
    rw [List.foldlM_cons]
    cases hr : r.element with
    | none =>
      simp [detach, hr, bind, Except.bind, ih]
    | some el =>
      simp [detach, removeEventListener, hr, bind, Except.bind, ih]

/-- C9: whatever the listener registry holds, `cleanup` completes without raising; the host
calls it makes are the debug log, then one `removeEventListener` for each record whose
element is present, with the event name and handler of that record and in registry order,
none for a record whose element is null, then the cleanup hook when there is a plugin
manager; it leaves the registry empty and `isInitialized` false. In particular `cleanup`
after `onShow` completes and leaves the registry empty. -/
theorem cleanup_detaches_recorded_listeners (h : Host) (w : World) :
    cleanup h w = Except.ok
        { w with
          trace := (w.trace ++ [Effect.logDebug "Example page cleanup" "PAGE"]
            ++ w.page.eventListeners.filterMap (fun r =>
                r.element.map (fun el => Effect.removeEventListener el r.event r.handler)))
            ++ (if h.pluginManager then [Effect.triggerHook "example-page:cleanup"] else []),
          page := { w.page with eventListeners := [], isInitialized := false } }
      ∧ ∃ w1, cleanup h (onShow h w) = Except.ok w1
          ∧ w1.page.eventListeners = [] ∧ w1.page.isInitialized = false := by
  have key : ∀ v : World, cleanup h v = Except.ok
      { v with
        trace := (v.trace ++ [Effect.logDebug "Example page cleanup" "PAGE"]
          ++ v.page.eventListeners.filterMap (fun r =>
              r.element.map (fun el => Effect.removeEventListener el r.event r.handler)))
          ++ (if h.pluginManager then [Effect.triggerHook "example-page:cleanup"] else []),
        page := { v.page with eventListeners := [], isInitialized := false } } := by
    intro v
    unfold cleanup
    simp only [foldlM_detach, bind, Except.bind, pure, Except.pure]
    cases h.pluginManager <;> simp
  refine ⟨key w, _, key (onShow h w), rfl, rfl⟩

/-! ## Lemmas on objects -/

theorem JsObject.get_cons (a : String) (b : JsValue) (rest : JsObject) (k : String) :
    JsObject.get ((a, b) :: rest) k
      = match JsObject.get rest k with
        | some later => some later
        | none => if a = k then some b else none := by
  rw [JsObject.get]

theorem JsObject.get_append_singleton (o : JsObject) (key : String) (value : JsValue)
    (k : String) :
    JsObject.get (o ++ [(key, value)]) k = if key = k then some value else JsObject.get o k := by
  induction o with
  | nil => simp [JsObject.get]
  | cons e rest ih =>
    obtain ⟨a, b⟩ := e
    rw [List.cons_append, JsObject.get_cons, ih, JsObject.get_cons]
    by_cases hk : key = k <;> simp [hk]

theorem JsObject.get_map_replace (o : JsObject) (key : String) (value : JsValue)
    (k : String) :
    JsObject.get (o.map (fun e => if e.1 = key then (key, value) else e)) k
      = if key = k then (if o.any (fun e => e.1 = key) then some value else none)
        else JsObject.get o k := by
  induction o with
  | nil => simp [JsObject.get]
  | cons e rest ih =>
    obtain ⟨a, b⟩ := e
    by_cases ha : a = key
    · have e1 : List.map (fun e : String × JsValue => if e.1 = key then (key, value) else e)
          ((a, b) :: rest)
          = (key, value) :: List.map (fun e => if e.1 = key then (key, value) else e) rest := by
        simp [ha]
      rw [e1, JsObject.get_cons, ih, JsObject.get_cons]
      by_cases hk : key = k
      · subst hk
        cases hany : rest.any (fun e => decide (e.1 = key)) <;> simp [hany, ha]
      · have hak : ¬ a = k := fun e => hk (ha ▸ e)
        simp [hk, hak]
    · have e1 : List.map (fun e : String × JsValue => if e.1 = key then (key, value) else e)
          ((a, b) :: rest)
          = (a, b) :: List.map (fun e => if e.1 = key then (key, value) else e) rest := by
        simp [ha]
      rw [e1, JsObject.get_cons, ih, JsObject.get_cons]
      by_cases hk : key = k
      · subst hk
        cases hany : rest.any (fun e => decide (e.1 = key)) <;> simp [hany, ha]
      · simp [hk]

theorem JsObject.get_set (o : JsObject) (key : String) (value : JsValue) (k : String) :
    JsObject.get (o.set key value) k = if key = k then some value else JsObject.get o k := by
  unfold JsObject.set
  split
  · next hany =>
    rw [JsObject.get_map_replace]
    simp [hany]
  · exact JsObject.get_append_singleton o key value k

theorem get_foldl_set (source target : JsObject) (k : String) :
    JsObject.get (source.foldl (fun acc e => JsObject.set acc e.1 e.2) target) k
      = match JsObject.get source k with
        | some v => some v
        | none => JsObject.get target k := by
  induction source generalizing target with
  | nil => simp [JsObject.get]
  | cons e rest ih =>
    obtain ⟨a, b⟩ := e
    rw [List.foldl_cons, ih, JsObject.get_cons, JsObject.get_set]
    cases JsObject.get rest k with
    | some v => rfl
    | none => by_cases ha : a = k <;> simp [ha]

/-- Object spread of a parsed object over a target: a key of the source has the value of the
source, any other key keeps the value of the target. -/
theorem get_spread_object (target o : JsObject) (k : String) :
    JsObject.get (spread target (Parsed.object o)) k
      = match JsObject.get o k with
        | some v => some v
        | none => JsObject.get target k :=
  get_foldl_set o target k

/-! ## Properties of the plugin -/

theorem loadStored_of_loads (host : PluginHost) (key : String) (current : JsObject)
    (hl : loads host key = true) :
    ∃ o, loadStored host key current = Except.ok o
      ∧ (host.getSetting key = none → o = current)
      ∧ (∀ s v, host.getSetting key = some s → s ≠ "" → host.jsonParse s = Except.ok v →
          o = spread current v) := by
  unfold loads at hl
  unfold loadStored
  cases hg : host.getSetting key with
  | none => exact ⟨current, rfl, fun _ => rfl, fun s v hs => by cases hs⟩
  | some saved =>
    rw [hg] at hl
    by_cases he : saved = ""
    · refine ⟨current, by simp [he, pure, Except.pure], (fun hn => by cases hn), ?_⟩
      intro s v hs hne
      cases hs
      exact absurd he hne
    · cases hp : host.jsonParse saved with
      | error e => simp [he, hp] at hl
      | ok v =>
        refine ⟨spread current v, by simp [he, hp, bind, Except.bind, pure, Except.pure],
          (fun hn => by cases hn), ?_⟩
        intro s v2 hs _ hv
        cases hs
        rw [hp] at hv
        cases hv
        rfl

theorem loadSettings_ok_of_loads (host : PluginHost) (p : ExamplePlugin)
    (hs : loads host "examplePlugin.settings" = true)
    (ht : loads host "examplePlugin.stats" = true) :
    ∃ q, loadSettings host p = Except.ok q := by
  obtain ⟨o1, h1, _⟩ := loadStored_of_loads host "examplePlugin.settings" p.settings hs
  obtain ⟨o2, h2, _⟩ := loadStored_of_loads host "examplePlugin.stats" p.stats ht
  exact ⟨{ p with settings := o1, stats := o2 },
    by simp [loadSettings, h1, h2, bind, Except.bind, pure, Except.pure]⟩

/-- C7: `loadSettings` merges the stored blobs over the current objects. When the stored
values can be loaded it completes, and then for a settings blob that parses to an object
every key of the blob has the value of the blob and every other key keeps its prior value;
the same holds for the stats blob; an object whose stored value is undefined is unchanged.
On a freshly constructed plugin the blob with `debugMode: true` only gives
`autoGreeting = true` and `debugMode = true`, and with nothing stored the result is the
constructor state. -/
theorem loadSettings_additive_merge (host : PluginHost) (p : ExamplePlugin)
    (hs : loads host "examplePlugin.settings" = true)
    (ht : loads host "examplePlugin.stats" = true) :
    ∃ q, loadSettings host p = Except.ok q
      ∧ (∀ s o, host.getSetting "examplePlugin.settings" = some s → s ≠ "" →
          host.jsonParse s = Except.ok (Parsed.object o) →
          ∀ key, q.settings.get key
            = match o.get key with
              | some v => some v
              | none => p.settings.get key)
      ∧ (∀ s o, host.getSetting "examplePlugin.stats" = some s → s ≠ "" →
          host.jsonParse s = Except.ok (Parsed.object o) →
          ∀ key, q.stats.get key
            = match o.get key with
              | some v => some v
              | none => p.stats.get key)
      ∧ (host.getSetting "examplePlugin.settings" = none → q.settings = p.settings)
      ∧ (host.getSetting "examplePlugin.stats" = none → q.stats = p.stats)
      ∧ (p = ExamplePlugin.new →
          ∀ s, host.getSetting "examplePlugin.settings" = some s → s ≠ "" →
          host.jsonParse s = Except.ok (Parsed.object [("debugMode", JsValue.bool true)]) →
          q.settings.get "autoGreeting" = some (JsValue.bool true)
            ∧ q.settings.get "debugMode" = some (JsValue.bool true))
      ∧ (p = ExamplePlugin.new → host.getSetting "examplePlugin.settings" = none →
          host.getSetting "examplePlugin.stats" = none → q = ExamplePlugin.new) := by
  obtain ⟨o1, h1, n1, m1⟩ := loadStored_of_loads host "examplePlugin.settings" p.settings hs
  obtain ⟨o2, h2, n2, m2⟩ := loadStored_of_loads host "examplePlugin.stats" p.stats ht
  refine ⟨{ p with settings := o1, stats := o2 }, ?_, ?_, ?_, n1, n2, ?_, ?_⟩
  · simp [loadSettings, h1, h2, bind, Except.bind, pure, Except.pure]
  · intro s o hg hne hp key
    show o1.get key = _
    rw [m1 s _ hg hne hp]
    exact get_spread_object p.settings o key
  · intro s o hg hne hp key
    show o2.get key = _
    rw [m2 s _ hg hne hp]
    exact get_spread_object p.stats o key
  · intro hnew s hg hne hp
    show o1.get "autoGreeting" = _ ∧ o1.get "debugMode" = _
    rw [m1 s _ hg hne hp, hnew]
    exact ⟨rfl, rfl⟩
  · intro hnew hg1 hg2
    rw [n1 hg1, n2 hg2, hnew]

/-- C7 on a sample: the stored settings blob holds `debugMode` only. -/
theorem loadSettings_additive_merge_witness :
    loads samplePluginHost "examplePlugin.settings" = true
      ∧ loads samplePluginHost "examplePlugin.stats" = true
      ∧ ∃ q, loadSettings samplePluginHost ExamplePlugin.new = Except.ok q
          ∧ q.settings.get "autoGreeting" = some (JsValue.bool true)
          ∧ q.settings.get "debugMode" = some (JsValue.bool true) := by
  refine ⟨rfl, rfl, ?_⟩
  obtain ⟨q, hq, _, _, _, _, hex, _⟩ :=
    loadSettings_additive_merge samplePluginHost ExamplePlugin.new rfl rfl
  exact ⟨q, hq, hex rfl _ rfl (by decide) rfl⟩

theorem runCommand_trace (outcome : ExecOutcome) (i : Nat) (command : String)
    (w : PluginWorld) (hout : outcome ≠ ExecOutcome.threw Thrown.nullish) :
    ∃ m, runCommand outcome i command w
      = { world := { w with trace := w.trace ++ [PluginEffect.exec command,
            PluginEffect.showToast m (notifySeverity outcome), PluginEffect.delay 500] },
          raised := none } := by
  cases outcome with
  | returned success stdout stderr =>
    cases success
    · exact ⟨"命令 " ++ toString (i + 1) ++ " 执行失败",
        by simp [runCommand, PluginWorld.call, notifySeverity]⟩
    · exact ⟨"命令 " ++ toString (i + 1) ++ " 执行成功: " ++ jsTrim stdout,
        by simp [runCommand, PluginWorld.call, notifySeverity]⟩
  | threw error =>
    cases error with
    | value message =>
      exact ⟨"命令 " ++ toString (i + 1) ++ " 执行出错: " ++ message,
        by simp [runCommand, PluginWorld.call, notifySeverity]⟩
    | nullish => exact absurd rfl hout

theorem batchLoop_cons_of_ok (exec : Nat → ExecOutcome) (i : Nat) (command : String)
    (rest : List String) (w w1 : PluginWorld)
    (hrun : runCommand (exec i) i command w = { world := w1, raised := none }) :
    batchLoop exec i (command :: rest) w = batchLoop exec (i + 1) rest w1 := by
  rw [batchLoop, hrun]

/-- C8, as stated, fails, in two ways. The first host call of `executeBatchCommands` is not
the start notification but the `setSetting` that persists the updated stats, so the trace of
a batch on a fresh plugin does not have the stated shape. And when the first execution is
rejected with undefined, reading `error.message` in the catch block raises: the exception
escapes, the other two commands are not attempted and no completion notification is
shown. -/
theorem executeBatchCommands_starts_with_setSetting :
    samplePluginWorld.trace = []
      ∧ (executeBatchCommands samplePluginHost sampleOutcomes
            samplePluginWorld).world.trace.head?
          = some (PluginEffect.setSetting "examplePlugin.stats"
              "\x7b\"pageVisits\":0,\"buttonsClicked\":1,\"commandsExecuted\":1\x7d")
      ∧ ¬ batchTraceShape sampleOutcomes
          (executeBatchCommands samplePluginHost sampleOutcomes samplePluginWorld).world.trace
      ∧ executeBatchCommands samplePluginHost nullishOutcomes samplePluginWorld
          = { world :=
                { plugin := (executeBatchCommands samplePluginHost sampleOutcomes
                    samplePluginWorld).world.plugin,
                  trace :=
                    [PluginEffect.setSetting "examplePlugin.stats"
                      "\x7b\"pageVisits\":0,\"buttonsClicked\":1,\"commandsExecuted\":1\x7d",
                     PluginEffect.showToast "开始执行批量命令..." "info",
                     PluginEffect.exec "echo \"插件批量命令 1\""] },
              raised := some "TypeError" } := by
  refine ⟨rfl, rfl, ?_, rfl⟩
  rintro ⟨start, m0, m1, m2, done, hshape⟩
  have hhead := congrArg List.head? hshape
  have hfirst : (executeBatchCommands samplePluginHost sampleOutcomes
      samplePluginWorld).world.trace.head?
      = some (PluginEffect.setSetting "examplePlugin.stats"
          "\x7b\"pageVisits\":0,\"buttonsClicked\":1,\"commandsExecuted\":1\x7d") := rfl
  rw [hfirst] at hhead
  simp at hhead

/-- C8, amended: whatever the three executions do, as long as none is rejected with null or
undefined, no exception escapes `executeBatchCommands`; it first persists the updated stats
with one `setSetting` and then makes exactly the stated host calls: an `info` start
notification; for commands 1, 2, 3 in order the execution, one notification (`success`
exactly when the execution returned `success: true`, `error` otherwise) and one delay of
500 ms; a final `success` notification. -/
theorem executeBatchCommands_trace (host : PluginHost) (exec : Nat → ExecOutcome)
    (w : PluginWorld)
    (h0 : exec 0 ≠ ExecOutcome.threw Thrown.nullish)
    (h1 : exec 1 ≠ ExecOutcome.threw Thrown.nullish)
    (h2 : exec 2 ≠ ExecOutcome.threw Thrown.nullish) :
    (executeBatchCommands host exec w).raised = none
      ∧ ∃ t, (executeBatchCommands host exec w).world.trace
          = w.trace ++ PluginEffect.setSetting "examplePlugin.stats"
              (host.jsonStringify (executeBatchCommands host exec w).world.plugin.stats) :: t
        ∧ batchTraceShape exec t := by
  unfold executeBatchCommands
  simp only [batchCommands]
  generalize hw0 : (saveStats host (incrementStat host "commandsExecuted"
    (incrementStat host "buttonsClicked" w))).call
      (PluginEffect.showToast "开始执行批量命令..." "info") = w0
  obtain ⟨m0, e0⟩ := runCommand_trace (exec 0) 0 "echo \"插件批量命令 1\"" w0 h0
  rw [batchLoop_cons_of_ok exec 0 _ _ w0 _ e0]
  generalize hw1 : ({ w0 with trace := w0.trace ++ [PluginEffect.exec "echo \"插件批量命令 1\"",
    PluginEffect.showToast m0 (notifySeverity (exec 0)), PluginEffect.delay 500] } : PluginWorld)
    = w1
  obtain ⟨m1, e1⟩ := runCommand_trace (exec (0 + 1)) (0 + 1) "echo \"插件批量命令 2\"" w1 h1
  rw [batchLoop_cons_of_ok exec (0 + 1) _ _ w1 _ e1]
  generalize hw2 : ({ w1 with trace := w1.trace ++ [PluginEffect.exec "echo \"插件批量命令 2\"",
    PluginEffect.showToast m1 (notifySeverity (exec (0 + 1))), PluginEffect.delay 500] }
    : PluginWorld) = w2
  obtain ⟨m2, e2⟩ :=
    runCommand_trace (exec (0 + 1 + 1)) (0 + 1 + 1) "echo \"插件批量命令 3\"" w2 h2
  rw [batchLoop_cons_of_ok exec (0 + 1 + 1) _ _ w2 _ e2]
  simp only [batchLoop]
  subst hw2 hw1 hw0
  refine ⟨by first | rfl | trivial, _, ?_, "开始执行批量命令...", m0, m1, m2,
    "批量命令执行完成", rfl⟩
  simp [PluginWorld.call, saveStats, incrementStat]

/-- C8, amended, on a sample: the second command returns `success: false`. -/
theorem executeBatchCommands_trace_witness :
    sampleOutcomes 0 ≠ ExecOutcome.threw Thrown.nullish
      ∧ sampleOutcomes 1 ≠ ExecOutcome.threw Thrown.nullish
      ∧ sampleOutcomes 2 ≠ ExecOutcome.threw Thrown.nullish
      ∧ (executeBatchCommands samplePluginHost sampleOutcomes samplePluginWorld).raised
          = none :=
  ⟨by decide, by decide, by decide,
    (executeBatchCommands_trace samplePluginHost sampleOutcomes samplePluginWorld
      (by decide) (by decide) (by decide)).1⟩

/-- C10, as stated, fails: when the stored settings are a non-empty string that
`JSON.parse` rejects, here a single opening brace, the parse error raised in
`loadSettings` is not caught and `init` is rejected with it. -/
theorem init_rejects_unparsable_settings :
    corruptPluginHost.getSetting "examplePlugin.settings" = some "\x7b"
      ∧ corruptPluginHost.jsonParse "\x7b" = Except.error "SyntaxError"
      ∧ init corruptPluginHost samplePluginWorld = Except.error "SyntaxError" :=
  ⟨rfl, rfl, rfl⟩

/-- C10, amended: when each of the two stored values is undefined, the empty string or text
that `JSON.parse` accepts, `init` completes normally. -/
theorem init_completes_when_stored_values_load (host : PluginHost) (w : PluginWorld)
    (hs : loads host "examplePlugin.settings" = true)
    (ht : loads host "examplePlugin.stats" = true) :
    ∃ w1, init host w = Except.ok w1 := by
  obtain ⟨q, hq⟩ := loadSettings_ok_of_loads host w.plugin hs ht
  unfold init
  rw [hq]
  exact ⟨_, rfl⟩

/-- C10, amended, on a sample: the stored settings blob is valid JSON text. -/
theorem init_completes_when_stored_values_load_witness :
    loads samplePluginHost "examplePlugin.settings" = true
      ∧ loads samplePluginHost "examplePlugin.stats" = true
      ∧ ∃ w1, init samplePluginHost samplePluginWorld = Except.ok w1 :=
  ⟨rfl, rfl, init_completes_when_stored_values_load samplePluginHost samplePluginWorld rfl rfl⟩

/-! ## Lemmas on storage writes -/

theorem storageWrites_append (a b : List PluginEffect) :
    storageWrites (a ++ b) = storageWrites a ++ storageWrites b := by
  simp [storageWrites, List.filterMap_append]

theorem quiet_refl (w : PluginWorld) : quiet w w := ⟨rfl, rfl⟩

theorem quiet_trans {w w1 w2 : PluginWorld} (h1 : quiet w w1) (h2 : quiet w1 w2) :
    quiet w w2 :=
  ⟨h2.1.trans h1.1, h2.2.trans h1.2⟩

theorem quiet_call (w : PluginWorld) (e : PluginEffect) (he : storageWrites [e] = []) :
    quiet w (w.call e) := by
  refine ⟨rfl, ?_⟩
  simp [PluginWorld.call, storageWrites_append, he]

theorem quiet_onHomePageLoaded (w : PluginWorld) : quiet w (onHomePageLoaded w) := by
  unfold onHomePageLoaded
  split
  · exact quiet_call w _ rfl
  · exact quiet_refl w

theorem quiet_onExamplePageLoaded (w : PluginWorld) : quiet w (onExamplePageLoaded w) := by
  unfold onExamplePageLoaded
  split
  · exact quiet_call w _ rfl
  · exact quiet_refl w

theorem quiet_onSettingsPageLoaded (w : PluginWorld) : quiet w (onSettingsPageLoaded w) := by
  unfold onSettingsPageLoaded
  split
  · exact quiet_call w _ rfl
  · exact quiet_refl w

theorem quiet_showSystemInfo (outcome : ExecOutcome) (w : PluginWorld) :
    quiet w (showSystemInfo outcome w) := by
  unfold showSystemInfo
  cases outcome with
  | returned success stdout stderr =>
    exact quiet_trans (quiet_call w (PluginEffect.exec "uname -a") rfl)
      (quiet_call _ _ (by rfl))
  | threw message =>
    exact quiet_trans (quiet_call w (PluginEffect.exec "uname -a") rfl)
      (quiet_call _ _ (by rfl))

theorem quiet_runCommand (outcome : ExecOutcome) (i : Nat) (command : String)
    (w : PluginWorld) : quiet w (runCommand outcome i command w).world := by
  by_cases hout : outcome = ExecOutcome.threw Thrown.nullish
  · subst hout
    exact quiet_call w (PluginEffect.exec command) rfl
  · obtain ⟨m, hm⟩ := runCommand_trace outcome i command w hout
    rw [hm]
    refine ⟨rfl, ?_⟩
    simp [storageWrites_append, storageWrites]

theorem quiet_batchLoop (exec : Nat → ExecOutcome) (i : Nat) (commands : List String)
    (w : PluginWorld) : quiet w (batchLoop exec i commands w).world := by
  induction commands generalizing i w with
  | nil => exact quiet_refl w
  | cons c rest ih =>
    have hq := quiet_runCommand (exec i) i c w
    rw [batchLoop]
    cases hr : runCommand (exec i) i c w with
    | mk w1 raised =>
      rw [hr] at hq
      cases raised with
      | none => exact quiet_trans hq (ih _ _)
      | some e => exact hq

theorem quiet_executeBatchCommands (host : PluginHost) (exec : Nat → ExecOutcome)
    (w : PluginWorld) :
    quiet (saveStats host (incrementStat host "commandsExecuted"
        (incrementStat host "buttonsClicked" w)))
      (executeBatchCommands host exec w).world := by
  simp only [executeBatchCommands]
  have hstart : quiet (saveStats host (incrementStat host "commandsExecuted"
      (incrementStat host "buttonsClicked" w)))
      ((saveStats host (incrementStat host "commandsExecuted"
        (incrementStat host "buttonsClicked" w))).call
          (PluginEffect.showToast "开始执行批量命令..." "info")) :=
    quiet_call _ _ rfl
  have hloop := quiet_batchLoop exec 0 batchCommands
    ((saveStats host (incrementStat host "commandsExecuted"
      (incrementStat host "buttonsClicked" w))).call
        (PluginEffect.showToast "开始执行批量命令..." "info"))
  cases hr : batchLoop exec 0 batchCommands
      ((saveStats host (incrementStat host "commandsExecuted"
        (incrementStat host "buttonsClicked" w))).call
          (PluginEffect.showToast "开始执行批量命令..." "info")) with
  | mk w1 raised =>
    rw [hr] at hloop
    cases raised with
    | none =>
      exact quiet_trans (quiet_trans hstart hloop)
        (quiet_call w1 (PluginEffect.showToast "批量命令执行完成" "success") rfl)
    | some e => exact quiet_trans hstart hloop

theorem lastWritten_of_saved (host : PluginHost) (w0 w1 : PluginWorld)
    (hq : quiet (saveStats host w0) w1) :
    lastWritten "examplePlugin.stats" w1.trace = some (host.jsonStringify w1.plugin.stats) := by
  obtain ⟨hp, ht⟩ := hq
  have hplugin : w1.plugin = w0.plugin := hp
  unfold lastWritten
  rw [ht, hplugin]
  simp [saveStats, PluginWorld.call, storageWrites_append, storageWrites, List.filter_append]

theorem incrementStat_get (host : PluginHost) (key : String) (w : PluginWorld) (k : String) :
    (incrementStat host key w).plugin.stats.get k
      = if key = k then some ((w.plugin.stats.read key).increment host)
        else w.plugin.stats.get k :=
  JsObject.get_set _ _ _ _

theorem increment_num (host : PluginHost) (v : JsValue) (n : Int) (hv : v = JsValue.num n) :
    v.increment host = JsValue.num (n + 1) := by
  subst hv
  rfl

theorem statsStep_single (host : PluginHost) (key : String) (w w1 : PluginWorld)
    (hq : quiet (saveStats host (incrementStat host key w)) w1) :
    statsStep host [key] w w1 := by
  have hplugin : w1.plugin = (incrementStat host key w).plugin := hq.1
  have hread : w1.plugin.stats.read key = (w.plugin.stats.read key).increment host := by
    rw [hplugin]
    simp [JsObject.read, incrementStat_get]
  refine ⟨lastWritten_of_saved host _ w1 hq, ?_, ?_, ?_⟩
  · intro k hk n hn
    rw [List.mem_singleton] at hk
    subst hk
    rw [hread]
    exact increment_num host _ n hn
  · intro k hk
    rw [List.mem_singleton] at hk
    subst hk
    exact hread
  · intro k hk
    have hne : ¬ key = k := fun e => hk (by simp [e])
    rw [hplugin, incrementStat_get]
    simp [hne]

theorem statsStep_double (host : PluginHost) (k1 k2 : String) (hk : k1 ≠ k2)
    (w w1 : PluginWorld)
    (hq : quiet (saveStats host (incrementStat host k2 (incrementStat host k1 w))) w1) :
    statsStep host [k1, k2] w w1 := by
  have hplugin : w1.plugin = (incrementStat host k2 (incrementStat host k1 w)).plugin := hq.1
  have hget : ∀ k, w1.plugin.stats.get k
      = if k2 = k then some ((w.plugin.stats.read k2).increment host)
        else if k1 = k then some ((w.plugin.stats.read k1).increment host)
        else w.plugin.stats.get k := by
    intro k
    rw [hplugin, incrementStat_get, incrementStat_get]
    have hread2 : (incrementStat host k1 w).plugin.stats.read k2 = w.plugin.stats.read k2 := by
      simp [JsObject.read, incrementStat_get, hk]
    rw [hread2]
  have hread1 : w1.plugin.stats.read k1 = (w.plugin.stats.read k1).increment host := by
    simp [JsObject.read, hget, hk.symm]
  have hread2 : w1.plugin.stats.read k2 = (w.plugin.stats.read k2).increment host := by
    simp [JsObject.read, hget]
  refine ⟨lastWritten_of_saved host _ w1 hq, ?_, ?_, ?_⟩
  · intro k hmem n hn
    simp only [List.mem_cons, List.mem_singleton, List.not_mem_nil, or_false] at hmem
    rcases hmem with rfl | rfl
    · rw [hread1]
      exact increment_num host _ n hn
    · rw [hread2]
      exact increment_num host _ n hn
  · intro k hmem
    simp only [List.mem_cons, List.mem_singleton, List.not_mem_nil, or_false] at hmem
    rcases hmem with rfl | rfl
    · exact hread1
    · exact hread2
  · intro k hmem
    simp only [List.mem_cons, List.mem_singleton, List.not_mem_nil, or_false, not_or] at hmem
    have h1 : ¬ k1 = k := fun e => hmem.1 e.symm
    have h2 : ¬ k2 = k := fun e => hmem.2 e.symm
    rw [hget]
    simp [h1, h2]

theorem quiet_if_call (c : Bool) (w : PluginWorld) (e : PluginEffect)
    (he : storageWrites [e] = []) : quiet w (if c = true then w.call e else w) := by
  cases c
  · exact quiet_refl w
  · exact quiet_call w e he

/-! ## Properties of the stats -/

/-- C11: after each of `onPageLoaded` (any page name), `executePluginAction1`,
`executePluginAction2`, `executeBatchCommands`, `executeQuickAction` (any action) and
`resetStats`, the value most recently written under `examplePlugin.stats` is the
serialisation of the current stats. Each of the first five adds 1 to its counter
(`pageVisits` for `onPageLoaded`, `buttonsClicked` for the others, and `commandsExecuted`
as well for `executeBatchCommands`) and leaves every other stat as it was; `resetStats`
sets the three counters to 0. -/
theorem stats_persisted_after_every_change (host : PluginHost) (w : PluginWorld)
    (page action : String) (confirmed : Bool) (exec : Nat → ExecOutcome)
    (outcome : ExecOutcome) :
    statsStep host ["pageVisits"] w (onPageLoaded host page w)
      ∧ statsStep host ["buttonsClicked"] w (executePluginAction1 host w)
      ∧ statsStep host ["buttonsClicked"] w (executePluginAction2 host confirmed w)
      ∧ statsStep host ["buttonsClicked", "commandsExecuted"] w
          (executeBatchCommands host exec w).world
      ∧ statsStep host ["buttonsClicked"] w (executeQuickAction host action outcome w)
      ∧ lastWritten "examplePlugin.stats" (resetStats host w).trace
          = some (host.jsonStringify (resetStats host w).plugin.stats)
      ∧ (resetStats host w).plugin.stats
          = [("pageVisits", JsValue.num 0), ("buttonsClicked", JsValue.num 0),
              ("commandsExecuted", JsValue.num 0)] := by
  refine ⟨?_, ?_, ?_, ?_, ?_, ?_, rfl⟩
  · apply statsStep_single
    unfold onPageLoaded
    have hdebug : quiet (saveStats host (incrementStat host "pageVisits" w))
        (if ((saveStats host (incrementStat host "pageVisits" w)).plugin.settings.read
            "debugMode").truthy = true then
          (saveStats host (incrementStat host "pageVisits" w)).call
            (PluginEffect.logDebug ("Page loaded: " ++ page) "PLUGIN")
        else saveStats host (incrementStat host "pageVisits" w)) :=
      quiet_if_call _ _ _ rfl
    split
    · exact quiet_trans hdebug (quiet_onHomePageLoaded _)
    · split
      · exact quiet_trans hdebug (quiet_onExamplePageLoaded _)
      · split
        · exact quiet_trans hdebug (quiet_onSettingsPageLoaded _)
        · exact hdebug
  · apply statsStep_single
    unfold executePluginAction1
    refine quiet_trans ?_ (quiet_if_call _ _ _ rfl)
    exact quiet_call _ _ rfl
  · apply statsStep_single
    unfold executePluginAction2
    have hconfirm : quiet (saveStats host (incrementStat host "buttonsClicked" w))
        ((saveStats host (incrementStat host "buttonsClicked" w)).call
          (PluginEffect.confirm "插件操作确认" "这将执行插件的高级操作，是否继续？")) :=
      quiet_call _ _ rfl
    cases confirmed
    · exact hconfirm
    · refine quiet_trans hconfirm ?_
      refine quiet_trans ?_ (quiet_call _ (PluginEffect.setTimeout _ _) rfl)
      exact quiet_call _ _ rfl
  · exact statsStep_double host "buttonsClicked" "commandsExecuted" (by decide) _ _
      (quiet_executeBatchCommands host exec w)
  · apply statsStep_single
    unfold executeQuickAction
    split
    · exact quiet_call _ _ rfl
    · split
      · exact quiet_call _ _ rfl
      · split
        · exact quiet_call _ _ rfl
        · split
          · exact quiet_showSystemInfo _ _
          · exact quiet_refl _
  · exact lastWritten_of_saved host _ _ (quiet_refl _)

/-- C11 on a sample: a page load on a fresh plugin takes `pageVisits` from 0 to 1. -/
theorem stats_persisted_after_every_change_witness :
    samplePluginWorld.plugin.stats.read "pageVisits" = JsValue.num 0
      ∧ (onPageLoaded samplePluginHost "home" samplePluginWorld).plugin.stats.read "pageVisits"
          = JsValue.num (0 + 1) :=
  ⟨rfl, (stats_persisted_after_every_change samplePluginHost samplePluginWorld "home"
    "clear-cache" true sampleOutcomes (sampleOutcomes 0)).1.2.1 "pageVisits"
      (List.mem_singleton.mpr rfl) 0 rfl⟩

/-! ## Properties of the views -/

theorem quiet_showPluginSettings (host : PluginHost) (response : DialogResponse)
    (form : SettingsForm) (w : PluginWorld) (hresp : response ≠ DialogResponse.button 0) :
    quiet w (showPluginSettings host response form w) := by
  unfold showPluginSettings
  cases response with
  | dismissed => exact quiet_call _ _ rfl
  | button i =>
    cases i with
    | zero => exact absurd rfl hresp
    | succ j => exact quiet_call _ _ rfl

theorem quiet_showStatistics (host : PluginHost) (response : DialogResponse)
    (w : PluginWorld) (hresp : response ≠ DialogResponse.button 0) :
    quiet w (showStatistics host response w) := by
  unfold showStatistics
  cases response with
  | dismissed => exact quiet_call _ _ rfl
  | button i =>
    cases i with
    | zero => exact absurd rfl hresp
    | succ j => exact quiet_call _ _ rfl

theorem statsStep_executeQuickAction (host : PluginHost) (action : String)
    (outcome : ExecOutcome) (w0 w : PluginWorld) (h0 : quiet w0 w) :
    storageWrites (executeQuickAction host action outcome w).trace
        = storageWrites w0.trace
          ++ [("examplePlugin.stats",
              host.jsonStringify (executeQuickAction host action outcome w).plugin.stats)]
      ∧ (executeQuickAction host action outcome w).plugin.settings = w0.plugin.settings
      ∧ statsStep host ["buttonsClicked"] w0 (executeQuickAction host action outcome w) := by
  have hq : quiet (saveStats host (incrementStat host "buttonsClicked" w))
      (executeQuickAction host action outcome w) := by
    unfold executeQuickAction
    split
    · exact quiet_call _ _ rfl
    · split
      · exact quiet_call _ _ rfl
      · split
        · exact quiet_call _ _ rfl
        · split
          · exact quiet_showSystemInfo _ _
          · exact quiet_refl _
  have hplugin : (executeQuickAction host action outcome w).plugin
      = (incrementStat host "buttonsClicked" w).plugin := hq.1
  have hstep := statsStep_single host "buttonsClicked" w _ hq
  refine ⟨?_, ?_, ?_⟩
  · rw [hq.2, hplugin, ← h0.2]
    simp [saveStats, incrementStat, PluginWorld.call, storageWrites_append, storageWrites]
  · rw [hplugin, ← h0.1]
    rfl
  · have hw : w.plugin = w0.plugin := h0.1
    unfold statsStep at hstep ⊢
    rw [hw] at hstep
    exact hstep

/-- C12, as stated, fails: choosing an entry of the quick-actions list runs
`executeQuickAction`, which counts the click and persists the stats, so this view writes to
host storage and changes the stats without any save or reset button. -/
theorem showQuickActions_selection_persists_stats :
    storageWrites samplePluginWorld.trace = []
      ∧ samplePluginWorld.plugin.stats.read "buttonsClicked" = JsValue.num 0
      ∧ storageWrites (showQuickActions samplePluginHost (some "clear-cache")
            (sampleOutcomes 0) samplePluginWorld).trace
          = [("examplePlugin.stats",
              "\x7b\"pageVisits\":0,\"buttonsClicked\":1,\"commandsExecuted\":0\x7d")]
      ∧ (showQuickActions samplePluginHost (some "clear-cache") (sampleOutcomes 0)
            samplePluginWorld).plugin.stats.read "buttonsClicked" = JsValue.num 1 :=
  ⟨rfl, rfl, rfl, rfl⟩

/-- C12, amended: each of the four views writes nothing to host storage and changes neither
settings nor stats, whatever the user does with it, unless the user presses the save button
of the settings view, presses the reset button of the statistics view, or chooses an entry
of the quick-actions list. Choosing an entry adds 1 to `buttonsClicked`, writes the stats
once, and leaves the settings as they were. -/
theorem views_write_only_on_user_actions (host : PluginHost) (w : PluginWorld)
    (response : DialogResponse) (form : SettingsForm) (selected : Option String)
    (outcome : ExecOutcome) :
    (response ≠ DialogResponse.button 0 →
        quiet w (showPluginSettings host response form w))
      ∧ (response ≠ DialogResponse.button 0 → quiet w (showStatistics host response w))
      ∧ quiet w (showPluginInfo response w)
      ∧ ((selected = none ∨ selected = some "") →
          quiet w (showQuickActions host selected outcome w))
      ∧ (∀ action, selected = some action → action ≠ "" →
          storageWrites (showQuickActions host selected outcome w).trace
              = storageWrites w.trace
                ++ [("examplePlugin.stats",
                    host.jsonStringify (showQuickActions host selected outcome w).plugin.stats)]
            ∧ (showQuickActions host selected outcome w).plugin.settings = w.plugin.settings
            ∧ statsStep host ["buttonsClicked"] w
                (showQuickActions host selected outcome w)) := by
  refine ⟨quiet_showPluginSettings host response form w, quiet_showStatistics host response w,
    quiet_call _ _ rfl, ?_, ?_⟩
  · intro hsel
    unfold showQuickActions
    rcases hsel with rfl | rfl
    · exact quiet_call _ _ rfl
    · exact quiet_call _ _ rfl
  · intro action hsel hne
    subst hsel
    have hlist : quiet w (w.call (PluginEffect.list "选择快速操作"
        [("清理缓存", "clear-cache"), ("重新加载配置", "reload-config"),
          ("导出日志", "export-logs"), ("系统信息", "system-info")])) :=
      quiet_call _ _ rfl
    have := statsStep_executeQuickAction host action outcome w _ hlist
    simpa [showQuickActions, hne] using this

/-- C12, amended, on a sample: closing the settings dialog of a fresh plugin. -/
theorem views_write_only_on_user_actions_witness :
    DialogResponse.dismissed ≠ DialogResponse.button 0
      ∧ quiet samplePluginWorld
          (showPluginSettings samplePluginHost DialogResponse.dismissed
            { autoGreeting := some true, greetingMessage := some "hi",
              showNotifications := some true, debugMode := none }
            samplePluginWorld) :=
  ⟨by decide,
    (views_write_only_on_user_actions samplePluginHost samplePluginWorld
      DialogResponse.dismissed _ none (sampleOutcomes 0)).1 (by decide)⟩

/-! ## Properties of initialization -/

theorem init_of_loadSettings (host : PluginHost) (w : PluginWorld) (q : ExamplePlugin)
    (hq : loadSettings host w.plugin = Except.ok q) :
    init host w = Except.ok
      { plugin := q,
        trace := w.trace ++ initCalls (q.settings.read "showNotifications").truthy
          (q.settings.read "debugMode").truthy } := by
  unfold init
  rw [hq]
  cases hsn : (q.settings.read "showNotifications").truthy <;>
    cases hdm : (q.settings.read "debugMode").truthy <;>
    simp [addPluginButtons, registerEventListeners, PluginWorld.call, hsn, hdm, bind,
      Except.bind, pure, Except.pure, initCalls]

/-- C13: when the stored settings and stats load, one `init` call completes and makes
exactly four `addButton` calls, with slots header, header, sidebar, bottom in that order,
and exactly four `addHook` calls, with names `page:loaded`, `example-page:shown`,
`example-page:cleanup`, `app:ready` in that order; it shows the load notification exactly
once if the merged `showNotifications` setting is `true` and not at all if it is `false`.
The test the code makes is the truth value of the setting, which is how the notification is
decided for a merged value that is not a boolean. -/
theorem init_buttons_hooks_notification (host : PluginHost) (w : PluginWorld)
    (hs : loads host "examplePlugin.settings" = true)
    (ht : loads host "examplePlugin.stats" = true) :
    ∃ w1 t, init host w = Except.ok w1 ∧ w1.trace = w.trace ++ t
      ∧ buttonSlots t = ["header", "header", "sidebar", "bottom"]
      ∧ hookNames t
          = ["page:loaded", "example-page:shown", "example-page:cleanup", "app:ready"]
      ∧ toasts t
          = (if (w1.plugin.settings.read "showNotifications").truthy then
              [("示例插件已加载", "success")]
            else [])
      ∧ (w1.plugin.settings.read "showNotifications" = JsValue.bool true →
          toasts t = [("示例插件已加载", "success")])
      ∧ (w1.plugin.settings.read "showNotifications" = JsValue.bool false → toasts t = []) := by
  obtain ⟨q, hq⟩ := loadSettings_ok_of_loads host w.plugin hs ht
  have hinit := init_of_loadSettings host w q hq
  have htoasts : ∀ a b : Bool, toasts (initCalls a b)
      = (if a = true then [("示例插件已加载", "success")] else []) := by
    intro a b
    cases a <;> cases b <;> rfl
  have hslots : ∀ a b : Bool, buttonSlots (initCalls a b)
      = ["header", "header", "sidebar", "bottom"] := by
    intro a b
    cases a <;> cases b <;> rfl
  have hnames : ∀ a b : Bool, hookNames (initCalls a b)
      = ["page:loaded", "example-page:shown", "example-page:cleanup", "app:ready"] := by
    intro a b
    cases a <;> cases b <;> rfl
  refine ⟨_, _, hinit, rfl, hslots _ _, hnames _ _, htoasts _ _, ?_, ?_⟩
  · intro hb
    have hb2 : q.settings.read "showNotifications" = JsValue.bool true := hb
    rw [htoasts, hb2]
    rfl
  · intro hb
    have hb2 : q.settings.read "showNotifications" = JsValue.bool false := hb
    rw [htoasts, hb2]
    rfl

/-- C13 on a sample: the stored settings blob holds `debugMode` only. -/
theorem init_buttons_hooks_notification_witness :
    loads samplePluginHost "examplePlugin.settings" = true
      ∧ loads samplePluginHost "examplePlugin.stats" = true
      ∧ ∃ w1 t, init samplePluginHost samplePluginWorld = Except.ok w1
          ∧ w1.trace = samplePluginWorld.trace ++ t
          ∧ buttonSlots t = ["header", "header", "sidebar", "bottom"] := by
  refine ⟨rfl, rfl, ?_⟩
  obtain ⟨w1, t, h1, h2, h3, _⟩ :=
    init_buttons_hooks_notification samplePluginHost samplePluginWorld rfl rfl
  exact ⟨w1, t, h1, h2, h3⟩

/-! ## Lemmas on the registration of listeners -/

theorem foldl_attach (ids : List (String × HandlerKind)) (w : World) :
    ids.foldl (fun acc p => attach p.1 p.2 acc) w
      = { w with
          nextClosure := w.nextClosure + (recordsFrom w.dom ids w.nextClosure).length,
          trace := w.trace ++ attachEffects (recordsFrom w.dom ids w.nextClosure),
          page := { w.page with
            eventListeners := w.page.eventListeners
              ++ recordsFrom w.dom ids w.nextClosure } } := by
  induction ids generalizing w with
  | nil => simp [recordsFrom, attachEffects]
  | cons p rest ih =>
    obtain ⟨id, kind⟩ := p
    rw [List.foldl_cons, ih]
    cases hel : getElementById w.dom id with
    | none => simp [attach, recordsFrom, hel]
    | some el =>
      simp [attach, recordsFrom, hel, attachEffects, List.append_assoc]
      omega

theorem addEventListeners_eq (w : World) :
    addEventListeners w
      = { w with
          nextClosure := w.nextClosure + (newRecords w.dom w.nextClosure).length,
          trace := w.trace ++ attachEffects (newRecords w.dom w.nextClosure),
          page := { w.page with
            eventListeners := w.page.eventListeners ++ newRecords w.dom w.nextClosure } } :=
  foldl_attach listenerIds w

theorem onShow_eq (h : Host) (w : World) :
    onShow h w
      = { w with
          nextClosure := w.nextClosure + (newRecords w.dom w.nextClosure).length,
          trace := w.trace ++ [Effect.logDebug "Example page shown" "PAGE"]
            ++ attachEffects (newRecords w.dom w.nextClosure)
            ++ (if h.pluginManager then [Effect.triggerHook "example-page:shown"] else []),
          page := { w.page with
            eventListeners := w.page.eventListeners ++ newRecords w.dom w.nextClosure,
            isInitialized := true } } := by
  unfold onShow
  simp only [addEventListeners_eq]
  cases h.pluginManager <;> simp

theorem recordsFrom_elements (dom : Dom) (ids : List (String × HandlerKind)) (next : Nat) :
    (recordsFrom dom ids next).map (fun r => (r.element, r.handler.kind))
      = ids.filterMap (fun p => (getElementById dom p.1).map (fun el => (some el, p.2))) := by
  induction ids generalizing next with
  | nil => rfl
  | cons p rest ih =>
    obtain ⟨id, kind⟩ := p
    cases hel : getElementById dom id with
    | none => simp [recordsFrom, hel, ih]
    | some el => simp [recordsFrom, hel, ih]

theorem recordsFrom_closure (dom : Dom) (ids : List (String × HandlerKind)) (next : Nat) :
    ∀ r ∈ recordsFrom dom ids next,
      next ≤ r.handler.closure
        ∧ r.handler.closure < next + (recordsFrom dom ids next).length := by
  induction ids generalizing next with
  | nil => simp [recordsFrom]
  | cons p rest ih =>
    obtain ⟨id, kind⟩ := p
    cases hel : getElementById dom id with
    | none =>
      simp only [recordsFrom, hel]
      exact ih next
    | some el =>
      simp only [recordsFrom, hel, List.mem_cons, List.length_cons]
      rintro r (rfl | hr)
      · simp
      · have := ih (next + 1) r hr
        omega

theorem foldl_registry_attach (recs acc : List ListenerRecord)
    (hrecs : ∀ r ∈ recs, ∃ el, r.element = some el) :
    (attachEffects recs).foldl (fun acc e =>
        match e with
        | .addEventListener el event handler =>
          acc ++ [{ element := some el, event := event, handler := handler }]
        | .logDebug message _ => if message = "Example page cleanup" then [] else acc
        | _ => acc) acc
      = acc ++ recs := by
  induction recs generalizing acc with
  | nil => simp [attachEffects]
  | cons r rest ih =>
    obtain ⟨el, hel⟩ := hrecs r (List.mem_cons_self _ _)
    have hrest : ∀ x ∈ rest, ∃ el, x.element = some el :=
      fun x hx => hrecs x (List.mem_cons_of_mem _ hx)
    have ih2 := ih (acc ++ [r]) hrest
    obtain ⟨relement, revent, rhandler⟩ := r
    simp only at hel
    subst hel
    simp only [attachEffects, List.filterMap_cons, Option.map_some', List.foldl_cons] at ih2 ⊢
    rw [ih2]
    simp

theorem recordsFrom_present (dom : Dom) (ids : List (String × HandlerKind)) (next : Nat) :
    ∀ r ∈ recordsFrom dom ids next, ∃ el, r.element = some el := by
  induction ids generalizing next with
  | nil => simp [recordsFrom]
  | cons p rest ih =>
    obtain ⟨id, kind⟩ := p
    cases hel : getElementById dom id with
    | none =>
      simp only [recordsFrom, hel]
      exact ih next
    | some el =>
      simp only [recordsFrom, hel, List.mem_cons]
      rintro r (rfl | hr)
      · exact ⟨el, rfl⟩
      · exact ih (next + 1) r hr

theorem foldl_registry_detach (records : List ListenerRecord) (acc : List ListenerRecord) :
    (records.filterMap (fun r =>
        r.element.map (fun el => Effect.removeEventListener el r.event r.handler))).foldl
      (fun acc e =>
        match e with
        | .addEventListener el event handler =>
          acc ++ [{ element := some el, event := event, handler := handler }]
        | .logDebug message _ => if message = "Example page cleanup" then [] else acc
        | _ => acc) acc
      = acc := by
  induction records generalizing acc with
  | nil => rfl
  | cons r rest ih =>
    cases hr : r.element with
    | none => simpa [List.filterMap_cons, hr] using ih acc
    | some el => simpa [List.filterMap_cons, hr] using ih acc

theorem cleanup_eq (h : Host) (w : World) :
    cleanup h w = Except.ok
      { w with
        trace := (w.trace ++ [Effect.logDebug "Example page cleanup" "PAGE"]
          ++ w.page.eventListeners.filterMap (fun r =>
              r.element.map (fun el => Effect.removeEventListener el r.event r.handler)))
          ++ (if h.pluginManager then [Effect.triggerHook "example-page:cleanup"] else []),
        page := { w.page with eventListeners := [], isInitialized := false } } := by
  unfold cleanup
  simp only [foldlM_detach, bind, Except.bind, pure, Except.pure]
  cases h.pluginManager <;> simp

theorem registryOf_onShow (h : Host) (w : World)
    (hinv : w.page.eventListeners = registryOf w.trace) :
    (onShow h w).page.eventListeners = registryOf (onShow h w).trace := by
  rw [onShow_eq]
  simp only [registryOf, List.foldl_append, List.foldl_cons, List.foldl_nil]
  rw [foldl_registry_attach (newRecords w.dom w.nextClosure) _ (recordsFrom_present _ _ _)]
  rw [hinv]
  cases h.pluginManager <;> simp [registryOf]

theorem registryOf_cleanup (h : Host) (w w1 : World) (hc : cleanup h w = Except.ok w1) :
    w1.page.eventListeners = registryOf w1.trace := by
  rw [cleanup_eq] at hc
  cases hc
  simp only [registryOf, List.foldl_append, List.foldl_cons, List.foldl_nil, if_true]
  rw [foldl_registry_detach]
  cases h.pluginManager <;> simp

theorem lifecycle_registry (h : Host) (ops : List LifecycleOp) (w : World)
    (hinv : w.page.eventListeners = registryOf w.trace) :
    ∃ w1, lifecycle h ops w = Except.ok w1
      ∧ w1.page.eventListeners = registryOf w1.trace := by
  induction ops generalizing w with
  | nil => exact ⟨w, rfl, hinv⟩
  | cons op rest ih =>
    cases op with
    | onShow => exact ih (onShow h w) (registryOf_onShow h w hinv)
    | cleanup =>
      have hc := cleanup_eq h w
      simp only [lifecycle, hc]
      exact ih _ (registryOf_cleanup h w _ hc)

/-! ## Properties of the registration of listeners -/

/-- C14: `onShow` is not idempotent. Each call appends to the registry exactly one record
per element present among the eight ids it looks up, in their order, attaches exactly the
recorded handler to that element, and removes no record. So a second call without a cleanup
appends records for the same elements and methods once more, with handlers that are
different functions, and from an empty registry the registry after two calls is twice as
long as after one. After any sequence of `onShow` and `cleanup` calls the registry holds
exactly the listeners attached since the last cleanup. -/
theorem onShow_registers_again (h : Host) (w : World) :
    (onShow h w).page.eventListeners
        = w.page.eventListeners ++ newRecords w.dom w.nextClosure
      ∧ (newRecords w.dom w.nextClosure).map (fun r => (r.element, r.handler.kind))
          = listenerIds.filterMap
              (fun p => (getElementById w.dom p.1).map (fun el => (some el, p.2)))
      ∧ (onShow h w).trace
          = w.trace ++ [Effect.logDebug "Example page shown" "PAGE"]
            ++ attachEffects (newRecords w.dom w.nextClosure)
            ++ (if h.pluginManager then [Effect.triggerHook "example-page:shown"] else [])
      ∧ (onShow h (onShow h w)).page.eventListeners
          = w.page.eventListeners ++ newRecords w.dom w.nextClosure
            ++ newRecords w.dom (w.nextClosure + (newRecords w.dom w.nextClosure).length)
      ∧ (newRecords w.dom (w.nextClosure + (newRecords w.dom w.nextClosure).length)).map
            (fun r => (r.element, r.handler.kind))
          = (newRecords w.dom w.nextClosure).map (fun r => (r.element, r.handler.kind))
      ∧ (∀ r1 ∈ newRecords w.dom w.nextClosure,
          ∀ r2 ∈ newRecords w.dom (w.nextClosure + (newRecords w.dom w.nextClosure).length),
            r1.handler ≠ r2.handler)
      ∧ (w.page.eventListeners = [] →
          (onShow h (onShow h w)).page.eventListeners.length
            = 2 * (onShow h w).page.eventListeners.length)
      ∧ (∀ ops : List LifecycleOp, w.page.eventListeners = registryOf w.trace →
          ∃ w1, lifecycle h ops w = Except.ok w1
            ∧ w1.page.eventListeners = registryOf w1.trace) := by
  have hmap : ∀ n : Nat, (newRecords w.dom n).map (fun r => (r.element, r.handler.kind))
      = listenerIds.filterMap
          (fun p => (getElementById w.dom p.1).map (fun el => (some el, p.2))) :=
    fun n => recordsFrom_elements w.dom listenerIds n
  have hlen : ∀ n : Nat, (newRecords w.dom n).length = (newRecords w.dom w.nextClosure).length := by
    intro n
    have h1 := congrArg List.length (hmap n)
    have h2 := congrArg List.length (hmap w.nextClosure)
    simp only [List.length_map] at h1 h2
    omega
  have htwice : (onShow h (onShow h w)).page.eventListeners
      = w.page.eventListeners ++ newRecords w.dom w.nextClosure
        ++ newRecords w.dom (w.nextClosure + (newRecords w.dom w.nextClosure).length) := by
    rw [onShow_eq h (onShow h w), onShow_eq h w]
  refine ⟨by rw [onShow_eq], hmap _, by rw [onShow_eq], htwice, ?_, ?_, ?_,
    fun ops hinv => lifecycle_registry h ops w hinv⟩
  · rw [hmap, hmap]
  · intro r1 hr1 r2 hr2 heq
    have b1 := recordsFrom_closure w.dom listenerIds _ r1 hr1
    have b2 := recordsFrom_closure w.dom listenerIds _ r2 hr2
    have hc : r1.handler.closure = r2.handler.closure := by rw [heq]
    have hl : (recordsFrom w.dom listenerIds w.nextClosure).length
        = (newRecords w.dom w.nextClosure).length := rfl
    omega
  · intro hempty
    rw [htwice, onShow_eq h w, hempty]
    simp only [List.nil_append, List.length_append, hlen]
    omega

/-- C14 on a sample: two `onShow` calls on a fresh page of the sample document. -/
theorem onShow_registers_again_witness :
    sampleWorld.page.eventListeners = []
      ∧ (onShow sampleHost (onShow sampleHost sampleWorld)).page.eventListeners.length
          = 2 * (onShow sampleHost sampleWorld).page.eventListeners.length :=
  ⟨rfl, (onShow_registers_again sampleHost sampleWorld).2.2.2.2.2.2.1 rfl⟩

end AuroraModule
